import Mathlib

/-!
Shallow embedding of the screenrec utility (src/main.c) and verification of
the frozen claims about it.

The embedding models:
 * the byte-level output file with an explicit write position (the C code
   writes through `write_char` / `write_int32_bigend` / `write_int64_bigend`
   and repositions with `lseek`);
 * the detiler (`dump_linear_pixels`, `convert_tiledx4kb_pixels_to_linear`,
   the per-thread `rearrange_rows` strips);
 * the Matroska muxer (`write_minimal_matroska_header`,
   `write_cluster_header`, the per-frame NAL handling of
   `record_screen_and_exit`, and its finalization path);
 * the cue index (linked chunked vector of capacity 2048 per chunk);
 * the pixel-format / pixel-order selection of screenshot and record modes.

Machine integers are modelled as `Nat`; every byte stored in the file is
reduced modulo 256 exactly where the C code masks with `& 0xff` (inside
`write_char`).  File descriptors are modelled by a validity flag: writes on
an invalid descriptor fail (are reported, counted in `errs`) and seeks on an
invalid descriptor fail, mirroring POSIX behaviour for a bad descriptor.
-/

namespace Screenrec

/-- Model of the output file plus its descriptor: the byte contents, the
current file offset, whether the descriptor is valid (open succeeded), and a
count of reported (and ignored) write failures. -/
structure MFile where
  data : List Nat
  pos : Nat
  valid : Bool
  errs : Nat
deriving Repr, DecidableEq

/-- Write byte `b` at offset `p`: overwrite if inside the file, append if at
the end (the program only ever writes at or before the end of file). -/
def writeAt (l : List Nat) (p b : Nat) : List Nat :=
  if p < l.length then l.set p b else l ++ [b]

/-- Model of `write_char` (src/main.c:523-533): mask to a byte, write one
byte at the current offset; on failure report to stderr and continue. -/
def write_char (f : MFile) (ch : Nat) : MFile :=
  if f.valid then
    { f with data := writeAt f.data f.pos (ch % 256), pos := f.pos + 1 }
  else
    { f with errs := f.errs + 1 }

/-- Write a list of bytes through `write_char`, one at a time. -/
def writeList (f : MFile) (l : List Nat) : MFile :=
  l.foldl write_char f

/-- Model of `write_int32_bigend` (src/main.c:536-543). -/
def write_int32_bigend (f : MFile) (n : Nat) : MFile :=
  writeList f [(n >>> 24) &&& 0xff, (n >>> 16) &&& 0xff, (n >>> 8) &&& 0xff, n &&& 0xff]

/-- Model of `write_int64_bigend` (src/main.c:546-551). -/
def write_int64_bigend (f : MFile) (n : Nat) : MFile :=
  write_int32_bigend (write_int32_bigend f (n >>> 32)) n

/-- Big-endian 32-bit read from the file contents at offset `p`
(out-of-range bytes read as 0). -/
def read32 (d : List Nat) (p : Nat) : Nat :=
  d.getD p 0 * 0x1000000 + d.getD (p + 1) 0 * 0x10000 + d.getD (p + 2) 0 * 0x100
    + d.getD (p + 3) 0

/-- Overwrite the bytes of `ws` into `d` starting at offset `p`. -/
def overwrite (d : List Nat) (p : Nat) (ws : List Nat) : List Nat :=
  match ws with
  | [] => d
  | w :: ws => overwrite (d.set p w) (p + 1) ws

@[simp] theorem overwrite_nil (d : List Nat) (p : Nat) : overwrite d p [] = d := rfl

@[simp] theorem overwrite_cons (d : List Nat) (p w : Nat) (ws : List Nat) :
    overwrite d p (w :: ws) = overwrite (d.set p w) (p + 1) ws := rfl

theorem length_overwrite (ws : List Nat) (d : List Nat) (p : Nat) :
    (overwrite d p ws).length = d.length := by
  induction ws generalizing d p with
  | nil => rfl
  | cons w ws ih => simp [overwrite, ih]

theorem getD_overwrite_lt (ws : List Nat) (d : List Nat) (p q : Nat) (h : q < p) :
    (overwrite d p ws).getD q 0 = d.getD q 0 := by
  induction ws generalizing d p with
  | nil => rfl
  | cons w ws ih =>
    rw [overwrite_cons, ih _ _ (Nat.lt_succ_of_lt h)]
    simp [List.getD]
    rw [List.getElem?_set_ne (by omega)]

theorem getD_overwrite_ge (ws : List Nat) (d : List Nat) (p q : Nat)
    (h : p + ws.length ≤ q) :
    (overwrite d p ws).getD q 0 = d.getD q 0 := by
  induction ws generalizing d p with
  | nil => rfl
  | cons w ws ih =>
    rw [overwrite_cons, ih _ _ (by simp at h ⊢; omega)]
    simp [List.getD]
    rw [List.getElem?_set_ne (by simp at h; omega)]

theorem getD_overwrite_inside (ws : List Nat) (d : List Nat) (p k : Nat)
    (hk : k < ws.length) (hin : p + k < d.length) :
    (overwrite d p ws).getD (p + k) 0 = ws.getD k 0 := by
  induction ws generalizing d p k with
  | nil => simp at hk
  | cons w ws ih =>
    rw [overwrite_cons]
    cases k with
    | zero =>
      rw [getD_overwrite_lt _ _ _ _ (by omega)]
      simp [List.getD]
      rw [List.getElem?_set_self (by simpa using hin)]
      simp
    | succ k =>
      have : p + (k + 1) = (p + 1) + k := by omega
      rw [this, ih _ _ _ (by simpa using hk) (by simp; omega)]
      simp [List.getD]

theorem getD_append_left {d e : List Nat} {q : Nat} (h : q < d.length) :
    (d ++ e).getD q 0 = d.getD q 0 := by
  simp [List.getD, List.getElem?_append_left h]

theorem getD_append_right {d e : List Nat} {q : Nat} (h : d.length ≤ q) :
    (d ++ e).getD q 0 = e.getD (q - d.length) 0 := by
  simp [List.getD, List.getElem?_append_right h]

theorem and_255_eq_mod (x : Nat) : x &&& 255 = x % 256 := by
  have := Nat.and_pow_two_sub_one_eq_mod x 8
  norm_num at this
  exact this

theorem write_char_eof (f : MFile) (ch : Nat) (hv : f.valid = true)
    (hp : f.pos = f.data.length) :
    write_char f ch = ⟨f.data ++ [ch % 256], f.pos + 1, true, f.errs⟩ := by
  simp [write_char, hv, writeAt, hp]

theorem writeList_eof (l : List Nat) (f : MFile) (hv : f.valid = true)
    (hp : f.pos = f.data.length) :
    writeList f l = ⟨f.data ++ l.map (· % 256), f.pos + l.length, true, f.errs⟩ := by
  induction l generalizing f with
  | nil =>
    cases f
    simp_all [writeList]
  | cons a l ih =>
    rw [writeList, List.foldl_cons, ← writeList, write_char_eof f a hv hp,
      ih _ rfl (by simp [hp])]
    simp [hp]
    omega

theorem writeList_patch (l : List Nat) (f : MFile) (hv : f.valid = true)
    (hb : f.pos + l.length ≤ f.data.length) :
    writeList f l
      = ⟨overwrite f.data f.pos (l.map (· % 256)), f.pos + l.length, true, f.errs⟩ := by
  induction l generalizing f with
  | nil =>
    cases f
    simp_all [writeList]
  | cons a l ih =>
    rw [writeList, List.foldl_cons, ← writeList]
    have hlt : f.pos < f.data.length := by simp at hb; omega
    have hwc : write_char f a = ⟨f.data.set f.pos (a % 256), f.pos + 1, true, f.errs⟩ := by
      simp [write_char, hv, writeAt, hlt]
    rw [hwc, ih _ rfl (by simp at hb ⊢; omega)]
    simp
    omega

/-- The four bytes that `write_int32_bigend` stores for the value `n`. -/
def int32bytes (n : Nat) : List Nat :=
  [n / 0x1000000 % 256, n / 0x10000 % 256, n / 0x100 % 256, n % 256]

@[simp] theorem length_int32bytes (n : Nat) : (int32bytes n).length = 4 := rfl

theorem int32_map_mod (n : Nat) :
    ([(n >>> 24) &&& 0xff, (n >>> 16) &&& 0xff, (n >>> 8) &&& 0xff, n &&& 0xff].map
      (· % 256)) = int32bytes n := by
  simp [int32bytes, and_255_eq_mod, Nat.shiftRight_eq_div_pow]

theorem write_int32_eof (f : MFile) (n : Nat) (hv : f.valid = true)
    (hp : f.pos = f.data.length) :
    write_int32_bigend f n = ⟨f.data ++ int32bytes n, f.pos + 4, true, f.errs⟩ := by
  rw [write_int32_bigend, writeList_eof _ _ hv hp, int32_map_mod]
  simp

theorem write_int32_patch (f : MFile) (n : Nat) (hv : f.valid = true)
    (hb : f.pos + 4 ≤ f.data.length) :
    write_int32_bigend f n
      = ⟨overwrite f.data f.pos (int32bytes n), f.pos + 4, true, f.errs⟩ := by
  rw [write_int32_bigend, writeList_patch _ _ hv (by simpa using hb), int32_map_mod]
  simp

theorem read32_of_int32bytes_append (d : List Nat) (n : Nat) :
    read32 (d ++ int32bytes n) d.length = n % 0x100000000 := by
  rw [read32]
  rw [getD_append_right (Nat.le_refl _),
    getD_append_right (Nat.le_succ_of_le (Nat.le_refl _)),
    getD_append_right (by omega), getD_append_right (by omega)]
  simp [int32bytes, List.getD]
  omega

theorem read32_of_overwrite_int32bytes (d : List Nat) (p n : Nat)
    (hb : p + 4 ≤ d.length) :
    read32 (overwrite d p (int32bytes n)) p = n % 0x100000000 := by
  have h0 := getD_overwrite_inside (int32bytes n) d p 0 (by norm_num) (by omega)
  have h1 := getD_overwrite_inside (int32bytes n) d p 1 (by norm_num) (by omega)
  have h2 := getD_overwrite_inside (int32bytes n) d p 2 (by norm_num) (by omega)
  have h3 := getD_overwrite_inside (int32bytes n) d p 3 (by norm_num) (by omega)
  rw [Nat.add_zero] at h0
  rw [read32, h0, h1, h2, h3]
  simp [int32bytes, List.getD]
  omega

/-! ## Detiler -/

/-- The X-tiled 4 KiB source address formula used by the detiler
(src/main.c:345 and src/main.c:799):
`j/8*4096*(p/512) + i/128*4096 + (j%8)*512 + (i%128)*4` for the pixel at
absolute screen coordinates `(X, Y) = (i, j)`. -/
def tiledx_src (p X Y : Nat) : Nat :=
  Y / 8 * 4096 * (p / 512) + X / 128 * 4096 + Y % 8 * 512 + X % 128 * 4

/-- Model of `convert_tiledx4kb_pixels_to_linear` (src/main.c:336-354): the
byte contents of the `out` buffer, in destination-index order.  `inb` is the
mapped framebuffer byte view. -/
def convert_tiledx4kb_pixels_to_linear (inb : Nat → Nat) (x y w h p : Nat) : List Nat :=
  (List.range h).flatMap (fun j =>
    (List.range w).flatMap (fun i =>
      [inb (tiledx_src p (x + i) (y + j) + 2), inb (tiledx_src p (x + i) (y + j) + 1),
        inb (tiledx_src p (x + i) (y + j))]))

/-- Model of `dump_linear_pixels` (src/main.c:306-332): the bytes emitted to
standard output.  The row pointer advances by the pitch `p` and the pixel
pointer by 4; note the function receives no `x`/`y` origin. -/
def dump_linear_pixels (inb : Nat → Nat) (w h p : Nat) : List Nat :=
  (List.range h).flatMap (fun i =>
    (List.range w).flatMap (fun j =>
      [inb (i * p + j * 4 + 2), inb (i * p + j * 4 + 1), inb (i * p + j * 4)]))

/-- Strip height of the worker pool (src/main.c:781): the C code computes
`ceil((double)h/total)`, which for the machine-integer ranges involved is the
ceiling division on naturals. -/
def striph (h total : Nat) : Nat := (h + total - 1) / total

/-- Number of output rows worker `index` owns: its row loop
(src/main.c:794-795) runs `j` from `y + index*striph` while
`j < y + (index+1)*striph` and `j < y + h`. -/
def strip_rows (h total index : Nat) : Nat :=
  min ((index + 1) * striph h total) h - index * striph h total

/-- Model of the per-frame work of one `rearrange_rows` worker
(src/main.c:792-807): the bytes it stores, in destination order, starting at
destination byte index `index * striph * w * 3`. -/
def rearrange_rows (inb : Nat → Nat) (x y w h p total index : Nat) : List Nat :=
  (List.range (strip_rows h total index)).flatMap (fun r =>
    (List.range w).flatMap (fun i =>
      [inb (tiledx_src p (x + i) (y + index * striph h total + r) + 2),
        inb (tiledx_src p (x + i) (y + index * striph h total + r) + 1),
        inb (tiledx_src p (x + i) (y + index * striph h total + r))]))

theorem flatMap_range_length (f : Nat → List Nat) (L : Nat)
    (hf : ∀ j, (f j).length = L) (n : Nat) :
    ((List.range n).flatMap f).length = n * L := by
  induction n with
  | zero => simp
  | succ n ih =>
    rw [List.range_succ, List.flatMap_append]
    simp [ih, hf]
    ring

theorem flatMap_range_getD (f : Nat → List Nat) (L : Nat)
    (hf : ∀ j, (f j).length = L) (n j r : Nat) (hj : j < n) (hr : r < L) :
    ((List.range n).flatMap f).getD (j * L + r) 0 = (f j).getD r 0 := by
  induction n with
  | zero => omega
  | succ n ih =>
    rw [List.range_succ, List.flatMap_append]
    rcases Nat.lt_or_ge j n with hjn | hjn
    · rw [getD_append_left, ih hjn]
      rw [flatMap_range_length f L hf]
      have : j + 1 ≤ n := hjn
      calc j * L + r < j * L + L := by omega
        _ = (j + 1) * L := by ring
        _ ≤ n * L := Nat.mul_le_mul_right L this
    · have hj' : j = n := by omega
      subst hj'
      rw [getD_append_right (by rw [flatMap_range_length f L hf]; omega)]
      rw [flatMap_range_length f L hf]
      simp [hf]

theorem pix_flatMap_length (a b c : Nat → Nat) (w : Nat) :
    ((List.range w).flatMap (fun i => [a i, b i, c i])).length = w * 3 :=
  flatMap_range_length (fun i => [a i, b i, c i]) 3 (fun _ => rfl) w

theorem pix_flatMap_getD (a b c : Nat → Nat) (w i k : Nat) (hi : i < w) (hk : k < 3) :
    ((List.range w).flatMap (fun i => [a i, b i, c i])).getD (i * 3 + k) 0
      = [a i, b i, c i].getD k 0 :=
  flatMap_range_getD (fun i => [a i, b i, c i]) 3 (fun _ => rfl) w i k hi hk

theorem convert_tiledx_getD (inb : Nat → Nat) (x y w h p i j k : Nat)
    (hi : i < w) (hj : j < h) (hk : k < 3) :
    (convert_tiledx4kb_pixels_to_linear inb x y w h p).getD ((j * w + i) * 3 + k) 0
      = [inb (tiledx_src p (x + i) (y + j) + 2), inb (tiledx_src p (x + i) (y + j) + 1),
          inb (tiledx_src p (x + i) (y + j))].getD k 0 := by
  rw [convert_tiledx4kb_pixels_to_linear]
  have hrow : ∀ j : Nat,
      ((List.range w).flatMap (fun i =>
        [inb (tiledx_src p (x + i) (y + j) + 2), inb (tiledx_src p (x + i) (y + j) + 1),
          inb (tiledx_src p (x + i) (y + j))])).length = w * 3 :=
    fun j => pix_flatMap_length _ _ _ w
  have idx : (j * w + i) * 3 + k = j * (w * 3) + (i * 3 + k) := by ring
  have hik : i * 3 + k < w * 3 := by
    calc i * 3 + k < i * 3 + 3 := by omega
      _ = (i + 1) * 3 := by ring
      _ ≤ w * 3 := Nat.mul_le_mul_right 3 hi
  rw [idx, flatMap_range_getD _ (w * 3) hrow h j (i * 3 + k) hj hik,
    pix_flatMap_getD _ _ _ w i k hi hk]

theorem rearrange_rows_getD (inb : Nat → Nat) (x y w h p total index i r k : Nat)
    (hi : i < w) (hr : r < strip_rows h total index) (hk : k < 3) :
    (rearrange_rows inb x y w h p total index).getD ((r * w + i) * 3 + k) 0
      = [inb (tiledx_src p (x + i) (y + index * striph h total + r) + 2),
          inb (tiledx_src p (x + i) (y + index * striph h total + r) + 1),
          inb (tiledx_src p (x + i) (y + index * striph h total + r))].getD k 0 := by
  rw [rearrange_rows]
  have hrow : ∀ r : Nat,
      ((List.range w).flatMap (fun i =>
        [inb (tiledx_src p (x + i) (y + index * striph h total + r) + 2),
          inb (tiledx_src p (x + i) (y + index * striph h total + r) + 1),
          inb (tiledx_src p (x + i) (y + index * striph h total + r))])).length = w * 3 :=
    fun r => pix_flatMap_length _ _ _ w
  have idx : (r * w + i) * 3 + k = r * (w * 3) + (i * 3 + k) := by ring
  have hik : i * 3 + k < w * 3 := by
    calc i * 3 + k < i * 3 + 3 := by omega
      _ = (i + 1) * 3 := by ring
      _ ≤ w * 3 := Nat.mul_le_mul_right 3 hi
  rw [idx, flatMap_range_getD _ (w * 3) hrow _ r (i * 3 + k) hr hik,
    pix_flatMap_getD _ _ _ w i k hi hk]

theorem dump_linear_getD (inb : Nat → Nat) (w h p i j k : Nat)
    (hi : i < w) (hj : j < h) (hk : k < 3) :
    (dump_linear_pixels inb w h p).getD ((j * w + i) * 3 + k) 0
      = [inb (j * p + i * 4 + 2), inb (j * p + i * 4 + 1), inb (j * p + i * 4)].getD k 0 := by
  rw [dump_linear_pixels]
  have hrow : ∀ j : Nat,
      ((List.range w).flatMap (fun i =>
        [inb (j * p + i * 4 + 2), inb (j * p + i * 4 + 1), inb (j * p + i * 4)])).length
        = w * 3 :=
    fun j => pix_flatMap_length _ _ _ w
  have idx : (j * w + i) * 3 + k = j * (w * 3) + (i * 3 + k) := by ring
  have hik : i * 3 + k < w * 3 := by
    calc i * 3 + k < i * 3 + 3 := by omega
      _ = (i + 1) * 3 := by ring
      _ ≤ w * 3 := Nat.mul_le_mul_right 3 hi
  rw [idx, flatMap_range_getD _ (w * 3) hrow h j (i * 3 + k) hj hik,
    pix_flatMap_getD _ _ _ w i k hi hk]

/-- C1, counterexample to the claim as stated: for the linear layout the
emitter has no `(x, y)` origin, so for the admissible geometry
`x = 1, y = 0, w = 1, h = 1` on a framebuffer with pitch 16 and source bytes
`inb k = k`, the claim requires `out[0]` to be the byte at
`(y+0)*p + (x+0)*4 + 2 = 6`, yet the code emits the byte at `0*p + 0*4 + 2 = 2`
(and the screenshot path even passes the full framebuffer size instead of
`w`, `h`). -/
theorem C1_detile_counterexample :
    (dump_linear_pixels (fun k => k) 1 1 16).getD 0 0 = 2
      ∧ (fun k => k) (0 * 16 + 1 * 4 + 2) = 6
      ∧ (2 : Nat) ≠ 6 := by
  refine ⟨?_, rfl, by decide⟩
  rfl

/-- C1 (amended): for the tiled-X-4KB layout, detile correctness holds
exactly as claimed, for every admissible geometry: both the screenshot
converter `convert_tiledx4kb_pixels_to_linear` and each `rearrange_rows`
worker strip place, at output pixel `(i, j)` (byte offset `(j*w+i)*3`), the
R, G, B bytes read from `src+2, src+1, src+0` where
`src = ((y+j)/8)*4096*(p/512) + ((x+i)/128)*4096 + ((y+j)%8)*512 + ((x+i)%128)*4`.
For the linear layout the emitter ignores the `(x, y)` origin: it reads
`src = j*p + i*4`, so the linear half of the claim holds only when
`x = y = 0`. -/
theorem C1_detile (inb : Nat → Nat) (x y w h p total index i j r : Nat)
    (hi : i < w) (hj : j < h) (hr : r < strip_rows h total index) :
    ((convert_tiledx4kb_pixels_to_linear inb x y w h p).getD ((j * w + i) * 3) 0
        = inb (tiledx_src p (x + i) (y + j) + 2)
      ∧ (convert_tiledx4kb_pixels_to_linear inb x y w h p).getD ((j * w + i) * 3 + 1) 0
        = inb (tiledx_src p (x + i) (y + j) + 1)
      ∧ (convert_tiledx4kb_pixels_to_linear inb x y w h p).getD ((j * w + i) * 3 + 2) 0
        = inb (tiledx_src p (x + i) (y + j)))
    ∧ ((rearrange_rows inb x y w h p total index).getD ((r * w + i) * 3) 0
        = inb (tiledx_src p (x + i) (y + index * striph h total + r) + 2)
      ∧ (rearrange_rows inb x y w h p total index).getD ((r * w + i) * 3 + 1) 0
        = inb (tiledx_src p (x + i) (y + index * striph h total + r) + 1)
      ∧ (rearrange_rows inb x y w h p total index).getD ((r * w + i) * 3 + 2) 0
        = inb (tiledx_src p (x + i) (y + index * striph h total + r))
      ∧ index * striph h total * w * 3 + (r * w + i) * 3
        = ((index * striph h total + r) * w + i) * 3)
    ∧ ((dump_linear_pixels inb w h p).getD ((j * w + i) * 3) 0 = inb (j * p + i * 4 + 2)
      ∧ (dump_linear_pixels inb w h p).getD ((j * w + i) * 3 + 1) 0
        = inb (j * p + i * 4 + 1)
      ∧ (dump_linear_pixels inb w h p).getD ((j * w + i) * 3 + 2) 0
        = inb (j * p + i * 4)) := by
  refine ⟨⟨?_, ?_, ?_⟩, ⟨?_, ?_, ?_, by ring⟩, ⟨?_, ?_, ?_⟩⟩
  · have := convert_tiledx_getD inb x y w h p i j 0 hi hj (by omega)
    simpa using this
  · exact convert_tiledx_getD inb x y w h p i j 1 hi hj (by omega)
  · exact convert_tiledx_getD inb x y w h p i j 2 hi hj (by omega)
  · have := rearrange_rows_getD inb x y w h p total index i r 0 hi hr (by omega)
    simpa using this
  · exact rearrange_rows_getD inb x y w h p total index i r 1 hi hr (by omega)
  · exact rearrange_rows_getD inb x y w h p total index i r 2 hi hr (by omega)
  · have := dump_linear_getD inb w h p i j 0 hi hj (by omega)
    simpa using this
  · exact dump_linear_getD inb w h p i j 1 hi hj (by omega)
  · exact dump_linear_getD inb w h p i j 2 hi hj (by omega)

/-- Witness for C1_detile at a concrete instance (geometry `x=5, y=3,
2×2`, pitch 512, a single worker owning the whole image, output pixel
`(1, 1)`, strip row 1). -/
theorem C1_detile_witness :
    1 < 2 ∧ 1 < 2 ∧ 1 < strip_rows 2 1 0
    ∧ (((convert_tiledx4kb_pixels_to_linear (fun k => k + 7) 5 3 2 2 512).getD
          ((1 * 2 + 1) * 3) 0 = (fun k => k + 7) (tiledx_src 512 (5 + 1) (3 + 1) + 2)
      ∧ (convert_tiledx4kb_pixels_to_linear (fun k => k + 7) 5 3 2 2 512).getD
          ((1 * 2 + 1) * 3 + 1) 0 = (fun k => k + 7) (tiledx_src 512 (5 + 1) (3 + 1) + 1)
      ∧ (convert_tiledx4kb_pixels_to_linear (fun k => k + 7) 5 3 2 2 512).getD
          ((1 * 2 + 1) * 3 + 2) 0 = (fun k => k + 7) (tiledx_src 512 (5 + 1) (3 + 1)))
    ∧ ((rearrange_rows (fun k => k + 7) 5 3 2 2 512 1 0).getD ((1 * 2 + 1) * 3) 0
          = (fun k => k + 7) (tiledx_src 512 (5 + 1) (3 + 0 * striph 2 1 + 1) + 2)
      ∧ (rearrange_rows (fun k => k + 7) 5 3 2 2 512 1 0).getD ((1 * 2 + 1) * 3 + 1) 0
          = (fun k => k + 7) (tiledx_src 512 (5 + 1) (3 + 0 * striph 2 1 + 1) + 1)
      ∧ (rearrange_rows (fun k => k + 7) 5 3 2 2 512 1 0).getD ((1 * 2 + 1) * 3 + 2) 0
          = (fun k => k + 7) (tiledx_src 512 (5 + 1) (3 + 0 * striph 2 1 + 1))
      ∧ 0 * striph 2 1 * 2 * 3 + (1 * 2 + 1) * 3 = ((0 * striph 2 1 + 1) * 2 + 1) * 3)
    ∧ ((dump_linear_pixels (fun k => k + 7) 2 2 512).getD ((1 * 2 + 1) * 3) 0
          = (fun k => k + 7) (1 * 512 + 1 * 4 + 2)
      ∧ (dump_linear_pixels (fun k => k + 7) 2 2 512).getD ((1 * 2 + 1) * 3 + 1) 0
          = (fun k => k + 7) (1 * 512 + 1 * 4 + 1)
      ∧ (dump_linear_pixels (fun k => k + 7) 2 2 512).getD ((1 * 2 + 1) * 3 + 2) 0
          = (fun k => k + 7) (1 * 512 + 1 * 4))) :=
  ⟨by decide, by decide, by decide,
    C1_detile (fun k => k + 7) 5 3 2 2 512 1 0 1 1 1 (by decide) (by decide) (by decide)⟩

/-! ## Pixel format and pixel order selection -/

/-- The pixel formats supported by the utility (src/main.c:43-47). -/
inductive pixel_format
  | XR24
deriving Repr, DecidableEq

/-- The pixel orders supported by the utility (src/main.c:54-59). -/
inductive pixel_order
  | LINEAR
  | TILEDX_4KB
deriving Repr, DecidableEq

/-- Macro `MODIFIER_VENDOR` (src/main.c:50). -/
def MODIFIER_VENDOR (m : Nat) : Nat := (m >>> 56) &&& 0xff

/-- Macro `MODIFIER_VALUE` (src/main.c:52). -/
def MODIFIER_VALUE (m : Nat) : Nat := m &&& 0x00ffffffffffffff

/-- The byte-wise comparison `!strncmp((char *)&pixel_format, "XR24", 4)`
(src/main.c:470) on a little-endian machine: the four bytes of the fourcc
must spell `X`, `R`, `2`, `4`. -/
def fourcc_is_XR24 (fourcc : Nat) : Bool :=
  fourcc &&& 0xff == 0x58 && ((fourcc >>> 8) &&& 0xff) == 0x52
    && ((fourcc >>> 16) &&& 0xff) == 0x32 && ((fourcc >>> 24) &&& 0xff) == 0x34

/-- Pixel-format selection of screenshot mode (src/main.c:468-476); the
second component records whether a warning was printed to stderr. -/
def screenshot_select_pf (fourcc : Nat) : pixel_format × Bool :=
  if fourcc_is_XR24 fourcc then (pixel_format.XR24, false) else (pixel_format.XR24, true)

/-- Pixel-order selection of screenshot mode (src/main.c:478-488); the
second component records whether a warning was printed to stderr. -/
def screenshot_select_po (m : Nat) : pixel_order × Bool :=
  if MODIFIER_VENDOR m = 0 ∧ MODIFIER_VALUE m = 0 then (pixel_order.LINEAR, false)
  else if MODIFIER_VENDOR m = 1 ∧ MODIFIER_VALUE m = 1 then (pixel_order.TILEDX_4KB, false)
  else (pixel_order.LINEAR, true)

/-- Record mode performs no inspection of the fourcc at all: it
unconditionally warns `"assuming pixel format XR24"` (src/main.c:923) and
proceeds with XR24 whatever the actual format is. -/
def record_select_pf (_fourcc : Nat) : pixel_format × Bool := (pixel_format.XR24, true)

/-- Record mode performs no inspection of the layout modifier: it
unconditionally warns `"assuming pixel order tiled X by 4 KB"`
(src/main.c:924) and every frame is converted by `rearrange_rows` with the
tiled-X address formula, whatever the actual modifier is. -/
def record_select_po (_m : Nat) : pixel_order × Bool := (pixel_order.TILEDX_4KB, true)

/-- C6, counterexample to the claim as stated: in record (capture) mode with
the unsupported layout modifier `2 <<< 56` (vendor 2, value 0 — neither
linear nor X-tiled-4KB), the claim requires the program to proceed as
linear, but record mode always proceeds with the tiled-X layout. -/
theorem C6_fallback_counterexample :
    MODIFIER_VENDOR (2 <<< 56) = 2 ∧ MODIFIER_VALUE (2 <<< 56) = 0
      ∧ record_select_po (2 <<< 56) = (pixel_order.TILEDX_4KB, true)
      ∧ pixel_order.TILEDX_4KB ≠ pixel_order.LINEAR := by
  refine ⟨by decide, by decide, rfl, by decide⟩

/-- C6 (amended): in screenshot mode the fallback behaviour is as claimed —
a fourcc other than XR24 warns and proceeds as XR24, a modifier that is
neither linear (vendor 0, value 0) nor X-tiled-4KB (vendor 1, value 1) warns
and proceeds as linear, and the two supported modifiers are taken without
warning; neither condition is fatal.  In record mode, however, the program
never inspects the fourcc or the modifier: it unconditionally warns that it
assumes XR24 and tiled-X-4KB and always proceeds with the tiled-X layout. -/
theorem C6_fallback (fourcc m : Nat)
    (hf : fourcc_is_XR24 fourcc = false)
    (hm : ¬((MODIFIER_VENDOR m = 0 ∧ MODIFIER_VALUE m = 0)
        ∨ (MODIFIER_VENDOR m = 1 ∧ MODIFIER_VALUE m = 1))) :
    screenshot_select_pf fourcc = (pixel_format.XR24, true)
    ∧ screenshot_select_po m = (pixel_order.LINEAR, true)
    ∧ screenshot_select_po 0 = (pixel_order.LINEAR, false)
    ∧ screenshot_select_po ((1 <<< 56) ||| 1) = (pixel_order.TILEDX_4KB, false)
    ∧ record_select_pf fourcc = (pixel_format.XR24, true)
    ∧ record_select_po m = (pixel_order.TILEDX_4KB, true) := by
  have h1 : ¬(MODIFIER_VENDOR m = 0 ∧ MODIFIER_VALUE m = 0) := fun hc => hm (Or.inl hc)
  have h2 : ¬(MODIFIER_VENDOR m = 1 ∧ MODIFIER_VALUE m = 1) := fun hc => hm (Or.inr hc)
  refine ⟨?_, ?_, by decide, by decide, rfl, rfl⟩
  · simp [screenshot_select_pf, hf]
  · simp [screenshot_select_po, h1, h2]

/-- Witness for C6_fallback: fourcc 0 (not XR24) and modifier `2 <<< 56`
(unsupported). -/
theorem C6_fallback_witness :
    fourcc_is_XR24 0 = false
    ∧ ¬((MODIFIER_VENDOR (2 <<< 56) = 0 ∧ MODIFIER_VALUE (2 <<< 56) = 0)
        ∨ (MODIFIER_VENDOR (2 <<< 56) = 1 ∧ MODIFIER_VALUE (2 <<< 56) = 1))
    ∧ (screenshot_select_pf 0 = (pixel_format.XR24, true)
      ∧ screenshot_select_po (2 <<< 56) = (pixel_order.LINEAR, true)
      ∧ screenshot_select_po 0 = (pixel_order.LINEAR, false)
      ∧ screenshot_select_po ((1 <<< 56) ||| 1) = (pixel_order.TILEDX_4KB, false)
      ∧ record_select_pf 0 = (pixel_format.XR24, true)
      ∧ record_select_po (2 <<< 56) = (pixel_order.TILEDX_4KB, true)) :=
  ⟨by decide, by decide, C6_fallback 0 (2 <<< 56) (by decide) (by decide)⟩

/-! ## Screenshot output (PPM) -/

/-- The PPM header `P6\n<w>\n<h>\n255\n` printed by
`take_screenshot_and_exit` (src/main.c:507), as ASCII bytes. -/
def ppm_header (w h : Nat) : List Nat :=
  [0x50, 0x36, 10] ++ (Nat.toDigits 10 w).map Char.toNat ++ [10]
    ++ (Nat.toDigits 10 h).map Char.toNat ++ [10, 0x32, 0x35, 0x35, 10]

/-- The bytes written to standard output by screenshot mode
(src/main.c:507-519): the PPM header for the selected geometry `(w, h)`,
then — depending on the selected pixel order — either
`dump_linear_pixels (buf, fb_width, fb_height, pitch)` (note: the full
framebuffer dimensions, not the geometry) or
`dump_tiledx4kb_pixels_linearly (buf, x, y, w, h, pitch)` (which emits
`convert_tiledx4kb_pixels_to_linear` byte by byte, src/main.c:357-370). -/
def take_screenshot_output (inb : Nat → Nat) (fbw fbh pitch : Nat) (po : pixel_order)
    (x y w h : Nat) : List Nat :=
  ppm_header w h ++ (match po with
    | pixel_order.LINEAR => dump_linear_pixels inb fbw fbh pitch
    | pixel_order.TILEDX_4KB => convert_tiledx4kb_pixels_to_linear inb x y w h pitch)

/-- C9: the claim is right and the code is wrong on the linear path.  For a
linear 4×2 framebuffer (pitch 16) and the admissible sub-rectangle geometry
`(0,0,1,1)`, the program emits the header for a 1×1 image followed by the
full-frame `4*2*3 = 24` body bytes — not the claimed `w*h*3 = 3` bytes of
the sub-rectangle — because `dump_linear_pixels` is invoked with the full
framebuffer dimensions and ignores the geometry.  The tiled-X path does
match the claim. -/
theorem C9_screenshot_bug :
    (take_screenshot_output (fun k => k) 4 2 16 pixel_order.LINEAR 0 0 1 1).length
        = (ppm_header 1 1).length + 4 * 2 * 3
      ∧ (ppm_header 1 1).length + 4 * 2 * 3 ≠ (ppm_header 1 1).length + 1 * 1 * 3
      ∧ (take_screenshot_output (fun k => k) 4 2 16 pixel_order.TILEDX_4KB 0 0 1 1).length
        = (ppm_header 1 1).length + 1 * 1 * 3 := by
  refine ⟨by decide, by decide, by decide⟩

/-! ## Matroska header -/

/-- The fixed EBML header bytes (src/main.c:554-562); 40 bytes. -/
def ebml_header : List Nat :=
  [0x1a, 0x45, 0xdf, 0xa3, 0xa3,
   0x42, 0x86, 0x81, 0x01,
   0x42, 0xf7, 0x81, 0x01,
   0x42, 0xf2, 0x81, 0x04,
   0x42, 0xf3, 0x81, 0x08,
   0x42, 0x82, 0x88, 0x6d, 0x61, 0x74, 0x72, 0x6f, 0x73, 0x6b, 0x61,
   0x42, 0x87, 0x81, 0x04,
   0x42, 0x85, 0x81, 0x02]

/-- The Segment element header (src/main.c:563-564): the 4-byte Segment ID
followed by a 4-byte size field initially written as 0x00. -/
def segment_header : List Nat :=
  [0x18, 0x53, 0x80, 0x67, 0x00, 0x00, 0x00, 0x00]

/-- `SEGMENT_BODY_START` (src/main.c:566). -/
def SEGMENT_BODY_START : Nat := ebml_header.length + segment_header.length

@[simp] theorem SEGMENT_BODY_START_eq : SEGMENT_BODY_START = 48 := rfl

/-- The `tracks_header` template of `write_minimal_matroska_header`
(src/main.c:576-586); 52 bytes. -/
def tracks_header : List Nat :=
  [0x16, 0x54, 0xae, 0x6b, 0x00,
   0xae, 0x00,
   0xd7, 0x81, 0x01,
   0x73, 0xc5, 0x81, 0x01,
   0x83, 0x81, 0x01,
   0x23, 0xe3, 0x83, 0x84, 0x00, 0x00, 0x00, 0x00,
   0xe0, 0x88,
   0xb0, 0x82, 0x00, 0x00, 0xba, 0x82, 0x00, 0x00,
   0x86, 0x8f, 0x56, 0x5f, 0x4d, 0x50, 0x45, 0x47, 0x34, 0x2f, 0x49, 0x53, 0x4f,
   0x2f, 0x41, 0x56, 0x43]

/-- The `codec_private_header` template (src/main.c:587-588). -/
def codec_private_header : List Nat := [0x63, 0xa2, 0x00]

/-- The `avcrec_header` template (src/main.c:589-590). -/
def avcrec_header : List Nat := [0x01, 0x42, 0xc0, 0x1f, 0xff]

/-- The `other_headers` template (src/main.c:591-608): SeekHead (with the
4-byte Cues position slot), Info with timestamp scale 1 and the two app
strings; 86 bytes. -/
def other_headers : List Nat :=
  [0x11, 0x4d, 0x9b, 0x74, 0xad,
   0x4d, 0xbb, 0x8b,
   0x53, 0xab, 0x84, 0x16, 0x54, 0xae, 0x6b,
   0x53, 0xac, 0x81, 0x00,
   0x4d, 0xbb, 0x8b,
   0x53, 0xab, 0x84, 0x15, 0x49, 0xa9, 0x66,
   0x53, 0xac, 0x81, 0x00,
   0x4d, 0xbb, 0x8e,
   0x53, 0xab, 0x84, 0x1c, 0x53, 0xbb, 0x6b,
   0x53, 0xac, 0x84, 0x00, 0x00, 0x00, 0x00,
   0x15, 0x49, 0xa9, 0x66, 0x9f,
   0x2a, 0xd7, 0xb1, 0x83, 0x00, 0x00, 0x01,
   0x4d, 0x80, 0x89, 0x73, 0x63, 0x72, 0x65, 0x65, 0x6e, 0x72, 0x65, 0x63,
   0x57, 0x41, 0x89, 0x73, 0x63, 0x72, 0x65, 0x65, 0x6e, 0x72, 0x65, 0x63]

/-- Result of assembling the header buffer: the bytes and the value stored
into `*seekhead_offs`. -/
structure HeaderBuild where
  bytes : List Nat
  seekh_off : Nat
deriving Repr, DecidableEq

/-- The header-buffer assembly of `write_minimal_matroska_header`
(src/main.c:569-729), up to but not including the file writes: concatenate
the templates with the AVC decoder configuration record (lone 0xe1, 16-bit
SPS length, SPS payload, 0x01, 16-bit PPS length, PPS payload), then apply
the source's size checks and byte patches in order.  `Except.error ()`
models `exit (1)`. -/
def build_matroska_header (width height default_duration : Nat) (sps pps : List Nat) :
    Except Unit HeaderBuild :=
  let avcrec_sz := avcrec_header.length + 3 + sps.length + 3 + pps.length
  let base := ebml_header ++ segment_header ++ tracks_header ++ codec_private_header
    ++ avcrec_header
    ++ [0xe1, (sps.length >>> 8) &&& 0xff, sps.length &&& 0xff] ++ sps
    ++ [0x01, (pps.length >>> 8) &&& 0xff, pps.length &&& 0xff] ++ pps
  if 126 < avcrec_sz then Except.error () else
  let b1 := base.set (SEGMENT_BODY_START + tracks_header.length + 2) (0x80 ||| avcrec_sz)
  let b2 := ((((b1.set (SEGMENT_BODY_START + 21) ((default_duration &&& 0xff000000) >>> 24)).set
    (SEGMENT_BODY_START + 22) ((default_duration &&& 0xff0000) >>> 16)).set
    (SEGMENT_BODY_START + 23) ((default_duration &&& 0xff00) >>> 8)).set
    (SEGMENT_BODY_START + 24) (default_duration &&& 0xff))
  let b3 := ((((b2.set (SEGMENT_BODY_START + 29) ((width &&& 0xff00) >>> 8)).set
    (SEGMENT_BODY_START + 30) (width &&& 0xff)).set
    (SEGMENT_BODY_START + 33) ((height &&& 0xff00) >>> 8)).set
    (SEGMENT_BODY_START + 34) (height &&& 0xff))
  if 126 < tracks_header.length - 7 + codec_private_header.length + avcrec_sz then
    Except.error () else
  let b4 := b3.set (SEGMENT_BODY_START + 6)
    (0x80 ||| (tracks_header.length - 7 + codec_private_header.length + avcrec_sz))
  if 126 < tracks_header.length - 5 + codec_private_header.length + avcrec_sz then
    Except.error () else
  let b5 := b4.set (SEGMENT_BODY_START + 4)
    (0x80 ||| (tracks_header.length - 5 + codec_private_header.length + avcrec_sz))
  let seekh_off := b5.length
  let full := b5 ++ other_headers
  Except.ok ⟨full.set (seekh_off + 32) ((seekh_off + 50 - SEGMENT_BODY_START) % 256),
    seekh_off⟩

/-- Model of `write_minimal_matroska_header` (src/main.c:569-741): assemble
the header buffer (exiting on an oversized configuration), seek to offset 0
— which fails, with `exit (1)`, when the descriptor is invalid — and write
the buffer through `write_char`. -/
def write_minimal_matroska_header (f : MFile) (width height default_duration : Nat)
    (sps pps : List Nat) : Except Unit (MFile × Nat) :=
  match build_matroska_header width height default_duration sps pps with
  | Except.error () => Except.error ()
  | Except.ok hb =>
    if f.valid then Except.ok (writeList { f with pos := 0 } hb.bytes, hb.seekh_off)
    else Except.error ()

@[simp] theorem length_ebml_header : ebml_header.length = 40 := rfl

@[simp] theorem length_segment_header : segment_header.length = 8 := rfl

@[simp] theorem length_tracks_header : tracks_header.length = 52 := rfl

@[simp] theorem length_codec_private_header : codec_private_header.length = 3 := rfl

@[simp] theorem length_avcrec_header : avcrec_header.length = 5 := rfl

@[simp] theorem length_other_headers : other_headers.length = 86 := rfl

theorem getD_set_ne (d : List Nat) (p q v : Nat) (h : p ≠ q) :
    (d.set p v).getD q 0 = d.getD q 0 := by
  simp [List.getD]
  rw [List.getElem?_set_ne h]

theorem getD_set_self (d : List Nat) (p v : Nat) (h : p < d.length) :
    (d.set p v).getD p 0 = v := by
  simp [List.getD]
  rw [List.getElem?_set_self h]
  simp

theorem build_error_iff (w2 h2 d2 : Nat) (s2 p2 : List Nat) :
    build_matroska_header w2 h2 d2 s2 p2 = Except.error ()
      ↔ (126 < 11 + s2.length + p2.length
        ∨ 126 < 48 + (11 + s2.length + p2.length)
        ∨ 126 < 50 + (11 + s2.length + p2.length)) := by
  rw [build_matroska_header]
  split_ifs with ha hb hc
  · simp at ha ⊢
    omega
  · simp at hb ⊢
    omega
  · simp at hc ⊢
    omega
  · simp at ha hb hc ⊢
    omega

/-- C8: the three configuration size checks of
`write_minimal_matroska_header` (src/main.c:676-719).  `Except.error ()`
models termination with exit code 1.  The assembly fails exactly when the
AVCDecoderConfigurationRecord total length `11 + |sps| + |pps|`, the Track
Entry length `48 + (11 + |sps| + |pps|)`, or the Tracks length
`50 + (11 + |sps| + |pps|)` exceeds 126; otherwise each of the three EBML
sizes is stored as the single byte `0x80 | size` (at buffer offsets 102, 54
and 52 respectively). -/
theorem C8_config_limits (width height dd : Nat) (sps pps : List Nat)
    (hok : 50 + (11 + sps.length + pps.length) ≤ 126) :
    (∀ w2 h2 d2 : Nat, ∀ s2 p2 : List Nat,
      (build_matroska_header w2 h2 d2 s2 p2 = Except.error ()
        ↔ (126 < 11 + s2.length + p2.length
          ∨ 126 < 48 + (11 + s2.length + p2.length)
          ∨ 126 < 50 + (11 + s2.length + p2.length))))
    ∧ (build_matroska_header width height dd sps pps).map
        (fun hb => hb.bytes.getD 102 0)
        = Except.ok (0x80 ||| (11 + sps.length + pps.length))
    ∧ (build_matroska_header width height dd sps pps).map
        (fun hb => hb.bytes.getD 54 0)
        = Except.ok (0x80 ||| (48 + (11 + sps.length + pps.length)))
    ∧ (build_matroska_header width height dd sps pps).map
        (fun hb => hb.bytes.getD 52 0)
        = Except.ok (0x80 ||| (50 + (11 + sps.length + pps.length))) := by
  refine ⟨fun w2 h2 d2 s2 p2 => build_error_iff w2 h2 d2 s2 p2, ?_, ?_, ?_⟩
  · rw [build_matroska_header]
    rw [if_neg (by simp; omega), if_neg (by simp; omega), if_neg (by simp; omega)]
    simp only [Except.map, Except.ok.injEq]
    rw [show SEGMENT_BODY_START + tracks_header.length + 2 = 102 from rfl,
      show SEGMENT_BODY_START + 21 = 69 from rfl, show SEGMENT_BODY_START + 22 = 70 from rfl,
      show SEGMENT_BODY_START + 23 = 71 from rfl, show SEGMENT_BODY_START + 24 = 72 from rfl,
      show SEGMENT_BODY_START + 29 = 77 from rfl, show SEGMENT_BODY_START + 30 = 78 from rfl,
      show SEGMENT_BODY_START + 33 = 81 from rfl, show SEGMENT_BODY_START + 34 = 82 from rfl,
      show SEGMENT_BODY_START + 6 = 54 from rfl, show SEGMENT_BODY_START + 4 = 52 from rfl]
    rw [getD_set_ne, getD_append_left, getD_set_ne, getD_set_ne, getD_set_ne, getD_set_ne,
      getD_set_ne, getD_set_ne, getD_set_ne, getD_set_ne, getD_set_ne, getD_set_ne,
      getD_set_self]
    · congr 1
      simp only [length_avcrec_header]
      omega
    all_goals
      try simp only [List.length_set, List.length_append, List.length_cons, List.length_nil,
        length_ebml_header, length_segment_header, length_tracks_header,
        length_codec_private_header, length_avcrec_header]
    all_goals omega
  · rw [build_matroska_header]
    rw [if_neg (by simp; omega), if_neg (by simp; omega), if_neg (by simp; omega)]
    simp only [Except.map, Except.ok.injEq]
    rw [show SEGMENT_BODY_START + tracks_header.length + 2 = 102 from rfl,
      show SEGMENT_BODY_START + 21 = 69 from rfl, show SEGMENT_BODY_START + 22 = 70 from rfl,
      show SEGMENT_BODY_START + 23 = 71 from rfl, show SEGMENT_BODY_START + 24 = 72 from rfl,
      show SEGMENT_BODY_START + 29 = 77 from rfl, show SEGMENT_BODY_START + 30 = 78 from rfl,
      show SEGMENT_BODY_START + 33 = 81 from rfl, show SEGMENT_BODY_START + 34 = 82 from rfl,
      show SEGMENT_BODY_START + 6 = 54 from rfl, show SEGMENT_BODY_START + 4 = 52 from rfl]
    rw [getD_set_ne, getD_append_left, getD_set_ne, getD_set_self]
    · congr 1
      simp only [length_tracks_header, length_codec_private_header, length_avcrec_header]
      omega
    all_goals
      try simp only [List.length_set, List.length_append, List.length_cons, List.length_nil,
        length_ebml_header, length_segment_header, length_tracks_header,
        length_codec_private_header, length_avcrec_header]
    all_goals omega
  · rw [build_matroska_header]
    rw [if_neg (by simp; omega), if_neg (by simp; omega), if_neg (by simp; omega)]
    simp only [Except.map, Except.ok.injEq]
    rw [show SEGMENT_BODY_START + tracks_header.length + 2 = 102 from rfl,
      show SEGMENT_BODY_START + 21 = 69 from rfl, show SEGMENT_BODY_START + 22 = 70 from rfl,
      show SEGMENT_BODY_START + 23 = 71 from rfl, show SEGMENT_BODY_START + 24 = 72 from rfl,
      show SEGMENT_BODY_START + 29 = 77 from rfl, show SEGMENT_BODY_START + 30 = 78 from rfl,
      show SEGMENT_BODY_START + 33 = 81 from rfl, show SEGMENT_BODY_START + 34 = 82 from rfl,
      show SEGMENT_BODY_START + 6 = 54 from rfl, show SEGMENT_BODY_START + 4 = 52 from rfl]
    rw [getD_set_ne, getD_append_left, getD_set_self]
    · congr 1
      simp only [length_tracks_header, length_codec_private_header, length_avcrec_header]
      omega
    all_goals
      try simp only [List.length_set, List.length_append, List.length_cons, List.length_nil,
        length_ebml_header, length_segment_header, length_tracks_header,
        length_codec_private_header, length_avcrec_header]
    all_goals omega

/-- Witness for C8_config_limits at SPS `[7]` and PPS `[8]`. -/
theorem C8_config_limits_witness :
    50 + (11 + ([7] : List Nat).length + ([8] : List Nat).length) ≤ 126
    ∧ ((∀ w2 h2 d2 : Nat, ∀ s2 p2 : List Nat,
        (build_matroska_header w2 h2 d2 s2 p2 = Except.error ()
          ↔ (126 < 11 + s2.length + p2.length
            ∨ 126 < 48 + (11 + s2.length + p2.length)
            ∨ 126 < 50 + (11 + s2.length + p2.length))))
      ∧ (build_matroska_header 640 480 16666667 [7] [8]).map
          (fun hb => hb.bytes.getD 102 0)
          = Except.ok (0x80 ||| (11 + ([7] : List Nat).length + ([8] : List Nat).length))
      ∧ (build_matroska_header 640 480 16666667 [7] [8]).map
          (fun hb => hb.bytes.getD 54 0)
          = Except.ok (0x80 ||| (48 + (11 + ([7] : List Nat).length + ([8] : List Nat).length)))
      ∧ (build_matroska_header 640 480 16666667 [7] [8]).map
          (fun hb => hb.bytes.getD 52 0)
          = Except.ok (0x80 ||| (50 + (11 + ([7] : List Nat).length + ([8] : List Nat).length)))) :=
  ⟨by decide, C8_config_limits 640 480 16666667 [7] [8] (by decide)⟩

/-! ## Record mode: opening the output file -/

/-- Opening the output file and writing the container scaffold
(src/main.c:928-937): a failed `open` is only reported (`perror`) — the
program does not exit there — and `write_minimal_matroska_header` is called
regardless on the invalid descriptor, where the initial `lseek` fails and
the program exits with code 1 (`Except.error ()`). -/
def record_open_and_write_header (open_ok : Bool) (width height default_duration : Nat)
    (sps pps : List Nat) : Except Unit (MFile × Nat) :=
  write_minimal_matroska_header ⟨[], 0, open_ok, 0⟩ width height default_duration sps pps

/-- C10, counterexample to the claim as stated: when `open` fails in record
mode, the program does NOT continue through the recording session ignoring
per-byte write errors — it terminates with exit code 1 as soon as
`write_minimal_matroska_header` tries to `lseek` on the invalid descriptor
(src/main.c:731-735). -/
theorem C10_open_failure_counterexample :
    record_open_and_write_header false 640 480 16666667 [0x67, 0x42] [0x68, 0xce]
      = Except.error () := rfl

/-- C10 (amended): a failed `open` of the output file is reported to stderr
and is not immediately fatal — control proceeds into the header writer — but
the program then exits with code 1 when the initial seek on the invalid
descriptor fails, for every header configuration; `write_char` itself never
terminates on a failed write: the failure is reported, the file bytes and
write position are unchanged, and execution continues. -/
theorem C10_open_failure (width height dd : Nat) (sps pps : List Nat) (f : MFile) (ch : Nat)
    (hf : f.valid = false) :
    record_open_and_write_header false width height dd sps pps = Except.error ()
    ∧ write_char f ch = { f with errs := f.errs + 1 } := by
  constructor
  · rw [record_open_and_write_header, write_minimal_matroska_header]
    cases hb : build_matroska_header width height dd sps pps with
    | error e => cases e; rfl
    | ok v => simp
  · simp [write_char, hf]

/-- Witness for C10_open_failure at a concrete invalid file and byte. -/
theorem C10_open_failure_witness :
    (MFile.mk [1, 2] 0 false 3).valid = false
    ∧ (record_open_and_write_header false 4 4 1000 [7] [8] = Except.error ()
      ∧ write_char (MFile.mk [1, 2] 0 false 3) 65
        = { MFile.mk [1, 2] 0 false 3 with errs := (MFile.mk [1, 2] 0 false 3).errs + 1 }) :=
  ⟨rfl, C10_open_failure 4 4 1000 [7] [8] (MFile.mk [1, 2] 0 false 3) 65 rfl⟩

/-! ## Record mode: clusters, blocks, cues -/

/-- A cue entry (`struct cue`, src/main.c:71-77). -/
structure Cue where
  timestamp : Nat
  cluster_position : Nat
  relative_position : Nat
deriving Repr, DecidableEq

/-- `CUE_VECTOR_SIZE` (src/main.c:80). -/
def CUE_VECTOR_SIZE : Nat := 2048

/-- The 18 bytes emitted by `write_cluster_header`: cluster ID, 4-byte
all-ones size sentinel, Timestamp element header `0xe7 0x88` and the 8-byte
big-endian timestamp. -/
def int64bytes (n : Nat) : List Nat := int32bytes (n >>> 32) ++ int32bytes n

/-- Byte image of one cluster header with the given timestamp. -/
def cluster_header_bytes (timestamp : Nat) : List Nat :=
  [0x1f, 0x43, 0xb6, 0x75, 0xff, 0xff, 0xff, 0xff, 0xe7, 0x88] ++ int64bytes timestamp

/-- Model of `write_cluster_header` (src/main.c:744-758). -/
def write_cluster_header (f : MFile) (timestamp : Nat) : MFile :=
  write_int64_bigend
    (writeList f [0x1f, 0x43, 0xb6, 0x75, 0xff, 0xff, 0xff, 0xff, 0xe7, 0x88]) timestamp

/-- The mutable per-session state of `record_screen_and_exit`
(src/main.c:820-1130) used by the per-frame NAL handling, plus ghost
history: `closed_clusters` records, for each cluster already closed by a
rollover, the triple (absolute start offset of its header, the size value
patched into its size field, absolute offset where the next cluster starts).
The cue index models the source's linked chunked vector: `cue_full` holds
the full chunks in order, `cue_last` the entries stored so far in the
current chunk, and `cueind` is the source's insertion index within the
current chunk. -/
structure RecState where
  file : MFile
  seekh_off : Nat
  timestamp_of_cluster : Nat
  cluster_offset_within_segment : Nat
  num_frames_within_cluster : Nat
  timestamp_within_cluster : Nat
  cluster_size : Nat
  frame_duration : Nat
  cue_full : List (List Cue)
  cue_last : List Cue
  cueind : Nat
  closed_clusters : List (Nat × Nat × Nat)
deriving Repr, DecidableEq

/-- The cluster rollover of the recording loop (src/main.c:1054-1066):
back-patch the current cluster's size field (4 bytes at
`current position - cluster_size - 4`) with `0x10000000 | cluster_size`,
seek back to the end, advance the cluster timestamp by the in-cluster
timestamp, record the new cluster offset, write a fresh cluster header, and
reset the per-cluster counters (`cluster_size` restarts at 10). -/
def close_and_open_cluster (s : RecState) : RecState :=
  let off := s.file.pos
  let f1 := { s.file with pos := s.file.pos - (s.cluster_size + 4) }
  let f2 := write_int32_bigend f1 (0x10000000 ||| s.cluster_size)
  let f3 := { f2 with pos := off }
  let tsc := s.timestamp_of_cluster + s.timestamp_within_cluster
  let f4 := write_cluster_header f3 tsc
  { s with
    file := f4
    timestamp_of_cluster := tsc
    cluster_offset_within_segment := off - SEGMENT_BODY_START
    num_frames_within_cluster := 0
    timestamp_within_cluster := 0
    cluster_size := 10
    closed_clusters := s.closed_clusters
      ++ [(s.cluster_offset_within_segment + SEGMENT_BODY_START, s.cluster_size, off)] }

/-- The cue-index insertion performed for an IDR NAL (src/main.c:1076-1089):
if the current chunk is full a fresh chunk is linked in, then the entry
`(timestamp_of_cluster + timestamp_within_cluster, cluster_offset_within_segment,
cluster_size)` is stored and the insertion index advances. -/
def append_cue (s : RecState) : RecState :=
  let c : Cue := ⟨s.timestamp_of_cluster + s.timestamp_within_cluster,
    s.cluster_offset_within_segment, s.cluster_size⟩
  if s.cueind = CUE_VECTOR_SIZE then
    { s with cue_full := s.cue_full ++ [s.cue_last], cue_last := [c], cueind := 1 }
  else
    { s with cue_last := s.cue_last ++ [c], cueind := s.cueind + 1 }

/-- The SimpleBlock emission (src/main.c:1092-1118): block ID 0xa3, 4-byte
size `0x10000000 | (outsz + 4)`, track byte 0x81, 16-bit big-endian
in-cluster timestamp, flags byte 0, then the `outsz` payload bytes; the
running cluster size grows by `outsz + 9`. -/
def write_simple_block (s : RecState) (outsz : Nat) (payload : List Nat) : RecState :=
  let f1 := write_char s.file 0xa3
  let f2 := write_int32_bigend f1 (0x10000000 ||| (outsz + 4))
  let f3 := write_char f2 0x81
  let f4 := write_char f3 ((s.timestamp_within_cluster >>> 8) &&& 0xff)
  let f5 := write_char f4 (s.timestamp_within_cluster &&& 0xff)
  let f6 := write_char f5 0
  let f7 := writeList f6 (payload.take outsz)
  { s with file := f7, cluster_size := s.cluster_size + outsz + 9 }

/-- The per-frame NAL handling of the recording loop (src/main.c:1038-1119):
nothing happens when the encoder returned no bytes; an oversized NAL
(`outsz + 4 > 268435455`) is skipped with a warning; otherwise the
in-cluster timestamp is computed as
`num_frames_within_cluster * frame_duration`, a rollover is performed when
it exceeds 0x7fff or the NAL is an IDR, an IDR is recorded in the cue index,
and the SimpleBlock is written. -/
def process_nal (s : RecState) (outsz : Nat) (payload : List Nat) (isIDR : Bool) : RecState :=
  if outsz = 0 then s
  else if 268435455 < outsz + 4 then s
  else
    let s1 := { s with
      timestamp_within_cluster := s.num_frames_within_cluster * s.frame_duration }
    let s2 := if 0x7fff < s1.timestamp_within_cluster || isIDR then
        close_and_open_cluster s1
      else s1
    let s3 := if isIDR then append_cue s2 else s2
    write_simple_block s3 outsz payload

/-- One observable frame of the recording loop: the vblank sequence delta
accumulated into `num_frames_within_cluster` (src/main.c:1002), the
encoder's return value `outsz`, the NAL payload, and whether the first NAL
is an IDR. -/
structure FrameEv where
  delta : Nat
  outsz : Nat
  payload : List Nat
  isIDR : Bool

/-- One iteration of the recording loop (src/main.c:981-1130) as seen by the
muxer state: accumulate the vblank delta into the frame counter, then handle
the encoder output. -/
def record_frame_step (s : RecState) (e : FrameEv) : RecState :=
  process_nal
    { s with num_frames_within_cluster := s.num_frames_within_cluster + e.delta }
    e.outsz e.payload e.isIDR

/-- Session initialisation (src/main.c:928-944): open the output file, write
the Matroska scaffold, record the first cluster offset, write the first
cluster header with timestamp 0, and init the counters (`cluster_size`
starts at 10) and the cue vector (one empty chunk). -/
def record_session_start (open_ok : Bool)
    (width height default_duration frame_duration : Nat)
    (sps pps : List Nat) : Except Unit RecState :=
  match write_minimal_matroska_header ⟨[], 0, open_ok, 0⟩ width height
      default_duration sps pps with
  | Except.error () => Except.error ()
  | Except.ok (f, seekh) =>
    Except.ok ⟨write_cluster_header f 0, seekh, 0, f.pos - SEGMENT_BODY_START, 0, 0, 10,
      frame_duration, [], [], 0, []⟩

/-- The cue entries visited by the finalization loop (src/main.c:1148-1178),
in visit order: every entry of each full chunk, then the first `cueind`
entries of the current chunk. -/
def cue_emit_list (s : RecState) : List Cue :=
  s.cue_full.flatMap (fun c => c.take CUE_VECTOR_SIZE) ++ s.cue_last.take s.cueind

/-- The 29 bytes of one CuePoint as emitted at finalization
(src/main.c:1154-1174). -/
def cue_point_bytes (c : Cue) : List Nat :=
  [0xbb, 0x9b, 0xb3, 0x88] ++ int64bytes c.timestamp
    ++ [0xb7, 0x8f, 0xf7, 0x81, 0x01, 0xf1, 0x84] ++ int32bytes c.cluster_position
    ++ [0xf0, 0x84] ++ int32bytes c.relative_position

/-- Finalization (src/main.c:1135-1186): back-patch the last cluster's size,
back-patch the SeekHead Cues position (4 bytes at `seekh_off + 46`) with the
segment-relative Cues offset, write the Cues ID and a zero size placeholder,
emit every cue point, back-patch the Cues size, and finally back-patch the
Segment size field (4 bytes at `sizeof(ebml_header) + 4`) with
`0x10000000 | (end_of_file - SEGMENT_BODY_START)`.  Returns the final file
and the ghost list of all closed clusters (the last cluster closes here). -/
def record_finalize (s : RecState) : MFile × List (Nat × Nat × Nat) :=
  let off := s.file.pos
  let f1 := { s.file with pos := s.file.pos - (s.cluster_size + 4) }
  let f2 := write_int32_bigend f1 (0x10000000 ||| s.cluster_size)
  let f3 := { f2 with pos := s.seekh_off + 46 }
  let f4 := write_int32_bigend f3 (off - SEGMENT_BODY_START)
  let f5 := { f4 with pos := off }
  let f6 := write_int32_bigend f5 0x1c53bb6b
  let off2 := f6.pos
  let f7 := write_int32_bigend f6 0x00000000
  let f8 := writeList f7 ((cue_emit_list s).flatMap cue_point_bytes)
  let cues_size := f8.pos - off2 - 4
  let f9 := { f8 with pos := off2 }
  let f10 := write_int32_bigend f9 (0x10000000 ||| cues_size)
  let off3 := f10.data.length
  let f11 := { f10 with pos := ebml_header.length + 4 }
  (write_int32_bigend f11 (0x10000000 ||| (off3 - SEGMENT_BODY_START)),
    s.closed_clusters
      ++ [(s.cluster_offset_within_segment + SEGMENT_BODY_START, s.cluster_size, off)])

/-- The muxer state after the scaffold and a given list of frames. -/
def record_session_state (open_ok : Bool)
    (width height default_duration frame_duration : Nat) (sps pps : List Nat)
    (events : List FrameEv) : Except Unit RecState :=
  match record_session_start open_ok width height default_duration frame_duration
      sps pps with
  | Except.error () => Except.error ()
  | Except.ok s0 => Except.ok (events.foldl record_frame_step s0)

/-- A whole recording session: scaffold, frames, finalization. -/
def record_session (open_ok : Bool)
    (width height default_duration frame_duration : Nat) (sps pps : List Nat)
    (events : List FrameEv) : Except Unit (MFile × List (Nat × Nat × Nat)) :=
  match record_session_state open_ok width height default_duration frame_duration
      sps pps events with
  | Except.error () => Except.error ()
  | Except.ok s => Except.ok (record_finalize s)

/-! ## Record mode: invariants -/

theorem write_int64_eof (f : MFile) (n : Nat) (hv : f.valid = true)
    (hp : f.pos = f.data.length) :
    write_int64_bigend f n = ⟨f.data ++ int64bytes n, f.pos + 8, true, f.errs⟩ := by
  rw [write_int64_bigend, write_int32_eof _ _ hv hp, write_int32_eof _ _ rfl (by simp [hp])]
  simp [int64bytes, hp]

theorem write_cluster_header_eof (f : MFile) (ts : Nat) (hv : f.valid = true)
    (hp : f.pos = f.data.length) :
    write_cluster_header f ts
      = ⟨f.data ++ cluster_header_bytes ts, f.pos + 18, true, f.errs⟩ := by
  rw [write_cluster_header, writeList_eof _ _ hv hp,
    write_int64_eof _ _ rfl (by simp [hp])]
  simp [cluster_header_bytes, hp]

@[simp] theorem length_int64bytes (n : Nat) : (int64bytes n).length = 8 := rfl

@[simp] theorem length_cluster_header_bytes (ts : Nat) :
    (cluster_header_bytes ts).length = 18 := by
  simp [cluster_header_bytes]

/-- The byte image of one SimpleBlock as stored in the file. -/
def simple_block_bytes (tsw outsz : Nat) (payload : List Nat) : List Nat :=
  [0xa3] ++ int32bytes (0x10000000 ||| (outsz + 4))
    ++ [0x81, (tsw >>> 8) % 256, tsw % 256, 0] ++ (payload.take outsz).map (· % 256)

theorem length_simple_block_bytes (tsw outsz : Nat) (payload : List Nat)
    (hwf : outsz ≤ payload.length) :
    (simple_block_bytes tsw outsz payload).length = 9 + outsz := by
  simp [simple_block_bytes]
  omega

theorem write_char_eq_writeList (f : MFile) (x : Nat) : write_char f x = writeList f [x] := rfl

theorem writeList_append_eq (f : MFile) (a b : List Nat) :
    writeList (writeList f a) b = writeList f (a ++ b) := by
  simp [writeList, List.foldl_append]

theorem write_simple_block_eq (s : RecState) (outsz : Nat) (payload : List Nat)
    (hv : s.file.valid = true) (hp : s.file.pos = s.file.data.length) :
    write_simple_block s outsz payload
      = { s with
          file := ⟨s.file.data ++ simple_block_bytes s.timestamp_within_cluster outsz payload,
            s.file.pos + 9 + (payload.take outsz).length, true, s.file.errs⟩,
          cluster_size := s.cluster_size + outsz + 9 } := by
  rw [write_simple_block]
  simp only [write_char_eq_writeList, write_int32_bigend, writeList_append_eq]
  rw [writeList_eof _ _ hv hp]
  simp [simple_block_bytes, and_255_eq_mod, hp]
  constructor
  · simp [int32bytes, Nat.shiftRight_eq_div_pow]
  · omega

/-- The state facts preserved by every frame of the recording loop: the
descriptor is valid, the write position is at end of file, the file ends
exactly `8 + cluster_size` bytes after the current cluster's start
(`cluster_offset_within_segment + SEGMENT_BODY_START`), the running size is
at least the 10 header bytes, the scaffold layout bounds hold, every closed
cluster's size field holds its patched value and is followed by exactly its
size of bytes before the next cluster, and the cue chunk bookkeeping is
consistent. -/
structure ClusterInv (s : RecState) : Prop where
  hvalid : s.file.valid = true
  hpos : s.file.pos = s.file.data.length
  hlen : s.cluster_offset_within_segment + SEGMENT_BODY_START + 8 + s.cluster_size
    = s.file.data.length
  hcs : 10 ≤ s.cluster_size
  hseekh : 103 ≤ s.seekh_off
  hcur : s.seekh_off + 86 ≤ s.cluster_offset_within_segment + SEGMENT_BODY_START
  hclosed : ∀ e ∈ s.closed_clusters,
    read32 s.file.data (e.1 + 4) = (0x10000000 ||| e.2.1) % 0x100000000
    ∧ e.1 + 8 + e.2.1 = e.2.2
    ∧ e.2.2 ≤ s.cluster_offset_within_segment + SEGMENT_BODY_START
    ∧ s.seekh_off + 86 ≤ e.1
  hchunks : ∀ c ∈ s.cue_full, c.length = CUE_VECTOR_SIZE
  hlast : s.cue_last.length = s.cueind
  hlastle : s.cueind ≤ CUE_VECTOR_SIZE

theorem read32_overwrite_before (d : List Nat) (p : Nat) (ws : List Nat) (q : Nat)
    (h : q + 4 ≤ p) : read32 (overwrite d p ws) q = read32 d q := by
  rw [read32, read32, getD_overwrite_lt _ _ _ _ (by omega), getD_overwrite_lt _ _ _ _ (by omega),
    getD_overwrite_lt _ _ _ _ (by omega), getD_overwrite_lt _ _ _ _ (by omega)]

theorem read32_overwrite_after (d : List Nat) (p : Nat) (ws : List Nat) (q : Nat)
    (h : p + ws.length ≤ q) : read32 (overwrite d p ws) q = read32 d q := by
  rw [read32, read32, getD_overwrite_ge _ _ _ _ (by omega), getD_overwrite_ge _ _ _ _ (by omega),
    getD_overwrite_ge _ _ _ _ (by omega), getD_overwrite_ge _ _ _ _ (by omega)]

theorem read32_append_left (d e : List Nat) (q : Nat) (h : q + 4 ≤ d.length) :
    read32 (d ++ e) q = read32 d q := by
  rw [read32, read32, getD_append_left (by omega), getD_append_left (by omega),
    getD_append_left (by omega), getD_append_left (by omega)]

theorem getD_map_mod (l : List Nat) (q : Nat) (h : q < l.length) :
    (l.map (· % 256)).getD q 0 = l.getD q 0 % 256 := by
  simp [List.getD, List.getElem?_map, List.getElem?_eq_getElem h]

/-- Facts about a successfully assembled header buffer: its length is
`seekh_off + 86`, `seekh_off` is at least 114, and the four bytes of the
Segment size field (offsets 44-47) are zero. -/
theorem build_ok_facts (w h dd : Nat) (sps pps : List Nat) (hb : HeaderBuild)
    (hok : build_matroska_header w h dd sps pps = Except.ok hb) :
    hb.bytes.length = hb.seekh_off + 86 ∧ 114 ≤ hb.seekh_off
    ∧ hb.bytes.getD 44 0 = 0 ∧ hb.bytes.getD 45 0 = 0
    ∧ hb.bytes.getD 46 0 = 0 ∧ hb.bytes.getD 47 0 = 0 := by
  rw [build_matroska_header] at hok
  split_ifs at hok with h1 h2 h3
  cases hok
  refine ⟨?_, ?_, ?_, ?_, ?_, ?_⟩
  · simp
    omega
  · simp
    omega
  all_goals {
    rw [getD_set_ne, getD_append_left]
    rw [getD_set_ne, getD_set_ne, getD_set_ne, getD_set_ne, getD_set_ne, getD_set_ne,
      getD_set_ne, getD_set_ne, getD_set_ne, getD_set_ne, getD_set_ne]
    rw [getD_append_left, getD_append_left, getD_append_left, getD_append_left,
      getD_append_left, getD_append_left, getD_append_left, getD_append_right]
    · decide
    all_goals
      try simp only [List.length_set, List.length_append, List.length_cons, List.length_nil,
        length_ebml_header, length_segment_header, length_tracks_header,
        length_codec_private_header, length_avcrec_header]
    all_goals try simp only [SEGMENT_BODY_START_eq]
    all_goals omega
  }

/-- When the configuration fits, session initialisation succeeds and the
resulting state satisfies the cluster invariant, with the documented initial
bookkeeping. -/
theorem record_session_start_ok (w h dd fd : Nat) (sps pps : List Nat)
    (hsz : 50 + (11 + sps.length + pps.length) ≤ 126) :
    ∃ s0, record_session_start true w h dd fd sps pps = Except.ok s0
      ∧ ClusterInv s0
      ∧ s0.frame_duration = fd
      ∧ s0.timestamp_of_cluster = 0
      ∧ s0.num_frames_within_cluster = 0
      ∧ s0.cluster_size = 10
      ∧ s0.cue_full = [] ∧ s0.cue_last = [] ∧ s0.cueind = 0
      ∧ s0.closed_clusters = []
      ∧ s0.cluster_offset_within_segment + SEGMENT_BODY_START = s0.seekh_off + 86
      ∧ s0.file.data.length = s0.seekh_off + 86 + 18
      ∧ read32 s0.file.data 44 = 0 := by
  cases hbuild : build_matroska_header w h dd sps pps with
  | error e =>
    exfalso
    cases e
    rw [build_error_iff] at hbuild
    omega
  | ok hb =>
    obtain ⟨hblen, hbseekh, h44, h45, h46, h47⟩ := build_ok_facts w h dd sps pps hb hbuild
    have hstart : record_session_start true w h dd fd sps pps
        = Except.ok ⟨⟨(hb.bytes.map (· % 256)) ++ cluster_header_bytes 0,
            hb.bytes.length + 18, true, 0⟩, hb.seekh_off, 0,
            hb.bytes.length - SEGMENT_BODY_START, 0, 0, 10, fd, [], [], 0, []⟩ := by
      rw [record_session_start, write_minimal_matroska_header, hbuild]
      have hw : writeList ⟨[], 0, true, 0⟩ hb.bytes
          = ⟨[] ++ hb.bytes.map (· % 256), 0 + hb.bytes.length, true, 0⟩ :=
        writeList_eof hb.bytes ⟨[], 0, true, 0⟩ rfl rfl
      simp only [if_pos]
      rw [show ({ MFile.mk [] 0 true 0 with pos := 0 } : MFile) = ⟨[], 0, true, 0⟩ from rfl,
        hw]
      rw [write_cluster_header_eof _ _ rfl (by simp)]
      simp
    refine ⟨_, hstart, ?_, rfl, rfl, rfl, rfl, rfl, rfl, rfl, rfl, ?_, ?_, ?_⟩
    · constructor
      · rfl
      · simp
      · simp only [SEGMENT_BODY_START_eq]
        simp
        omega
      · exact Nat.le_refl 10
      · show 103 ≤ hb.seekh_off
        omega
      · simp only [SEGMENT_BODY_START_eq]
        simp
        omega
      · intro e he
        simp at he
      · intro c hc
        simp at hc
      · rfl
      · simp [CUE_VECTOR_SIZE]
    · simp only [SEGMENT_BODY_START_eq]
      simp
      omega
    · simp
      omega
    · rw [read32_append_left _ _ _ (by simp; omega)]
      rw [read32, getD_map_mod _ _ (by omega), getD_map_mod _ _ (by omega),
        getD_map_mod _ _ (by omega), getD_map_mod _ _ (by omega), h44, h45, h46, h47]

/-- Shape of a cluster rollover under the invariant: the size field of the
cluster that starts at `cluster_offset_within_segment + SEGMENT_BODY_START`
is overwritten (4 bytes at its offset + 4) with `0x10000000 | cluster_size`,
a fresh 18-byte cluster header carrying the advanced timestamp is appended
at the end of file, and the bookkeeping is reset. -/
theorem close_and_open_cluster_eq (s : RecState) (hInv : ClusterInv s) :
    close_and_open_cluster s = { s with
      file := ⟨overwrite s.file.data
          (s.cluster_offset_within_segment + SEGMENT_BODY_START + 4)
          (int32bytes (0x10000000 ||| s.cluster_size))
        ++ cluster_header_bytes (s.timestamp_of_cluster + s.timestamp_within_cluster),
        s.file.data.length + 18, true, s.file.errs⟩,
      timestamp_of_cluster := s.timestamp_of_cluster + s.timestamp_within_cluster,
      cluster_offset_within_segment := s.file.data.length - SEGMENT_BODY_START,
      num_frames_within_cluster := 0,
      timestamp_within_cluster := 0,
      cluster_size := 10,
      closed_clusters := s.closed_clusters
        ++ [(s.cluster_offset_within_segment + SEGMENT_BODY_START, s.cluster_size,
             s.file.data.length)] } := by
  obtain ⟨hv, hp, hlen, hcs, hsk, hcur, hcl, hch, hl, hle⟩ := hInv
  have hpos1 : s.file.data.length - (s.cluster_size + 4)
      = s.cluster_offset_within_segment + SEGMENT_BODY_START + 4 := by
    omega
  rw [close_and_open_cluster]
  rw [write_int32_patch { s.file with pos := s.file.pos - (s.cluster_size + 4) }
    (0x10000000 ||| s.cluster_size) hv (by simp; omega)]
  rw [write_cluster_header_eof]
  · simp [length_overwrite, hp, hpos1]
  · simp
  · simp [length_overwrite, hp]

theorem clusterInv_num (s : RecState) (hInv : ClusterInv s) (n : Nat) :
    ClusterInv { s with num_frames_within_cluster := n } :=
  ⟨hInv.hvalid, hInv.hpos, hInv.hlen, hInv.hcs, hInv.hseekh, hInv.hcur, hInv.hclosed,
    hInv.hchunks, hInv.hlast, hInv.hlastle⟩

theorem clusterInv_tsw (s : RecState) (hInv : ClusterInv s) (n : Nat) :
    ClusterInv { s with timestamp_within_cluster := n } :=
  ⟨hInv.hvalid, hInv.hpos, hInv.hlen, hInv.hcs, hInv.hseekh, hInv.hcur, hInv.hclosed,
    hInv.hchunks, hInv.hlast, hInv.hlastle⟩

theorem clusterInv_close (s : RecState) (hInv : ClusterInv s) :
    ClusterInv (close_and_open_cluster s) := by
  rw [close_and_open_cluster_eq s hInv]
  obtain ⟨hv, hp, hlen, hcs, hsk, hcur, hcl, hch, hl, hle⟩ := hInv
  simp only [SEGMENT_BODY_START_eq] at *
  constructor
  · rfl
  · simp [length_overwrite]
  · simp [length_overwrite]
    omega
  · norm_num
  · exact hsk
  · simp
    omega
  · intro e he
    simp at he
    rcases he with he | he
    · obtain ⟨hr, hspan, hub, hlb⟩ := hcl e he
      refine ⟨?_, hspan, by simp; omega, hlb⟩
      show read32 _ (e.1 + 4) = _
      rw [read32_append_left _ _ _ (by rw [length_overwrite]; omega),
        read32_overwrite_before _ _ _ _ (by omega)]
      exact hr
    · subst he
      refine ⟨?_, by simp; omega, by simp; omega, by simp; omega⟩
      show read32 _ (s.cluster_offset_within_segment + 48 + 4) = _
      rw [read32_append_left _ _ _ (by rw [length_overwrite]; omega)]
      exact read32_of_overwrite_int32bytes _ _ _ (by omega)
  · exact fun c hc => hch c hc
  · exact hl
  · exact hle

theorem clusterInv_append_cue (s : RecState) (hInv : ClusterInv s) :
    ClusterInv (append_cue s) := by
  obtain ⟨hv, hp, hlen, hcs, hsk, hcur, hcl, hch, hl, hle⟩ := hInv
  rw [append_cue]
  split_ifs with hfull
  · refine ⟨hv, hp, hlen, hcs, hsk, hcur, hcl, ?_, by simp, by simp [CUE_VECTOR_SIZE]⟩
    intro c hc
    simp at hc
    rcases hc with hc | hc
    · exact hch c hc
    · rw [hc, hl, hfull]
  · refine ⟨hv, hp, hlen, hcs, hsk, hcur, hcl, hch, by simp [hl], ?_⟩
    simp only [CUE_VECTOR_SIZE] at *
    omega

theorem clusterInv_block (s : RecState) (outsz : Nat) (payload : List Nat)
    (hInv : ClusterInv s) (hwf : outsz ≤ payload.length) :
    ClusterInv (write_simple_block s outsz payload) := by
  rw [write_simple_block_eq s outsz payload hInv.hvalid hInv.hpos]
  obtain ⟨hv, hp, hlen, hcs, hsk, hcur, hcl, hch, hl, hle⟩ := hInv
  have hsbb := length_simple_block_bytes s.timestamp_within_cluster outsz payload hwf
  simp only [SEGMENT_BODY_START_eq] at *
  constructor
  · rfl
  · simp [hsbb, hp]
    omega
  · simp [hsbb]
    omega
  · simp
    omega
  · exact hsk
  · simp
    omega
  · intro e he
    simp only at he
    obtain ⟨hr, hspan, hub, hlb⟩ := hcl e he
    refine ⟨?_, hspan, by simp; omega, hlb⟩
    show read32 _ (e.1 + 4) = _
    rw [read32_append_left _ _ _ (by omega)]
    exact hr
  · exact fun c hc => hch c hc
  · exact hl
  · exact hle

/-- The two guards of the NAL handling resolved: the shape of the main
branch. -/
theorem process_nal_eq (s : RecState) (outsz : Nat) (payload : List Nat) (isIDR : Bool)
    (h0 : 0 < outsz) (hsz : outsz + 4 ≤ 268435455) :
    process_nal s outsz payload isIDR
      = write_simple_block
          (if isIDR then
            append_cue
              (if 0x7fff < s.num_frames_within_cluster * s.frame_duration || isIDR then
                close_and_open_cluster
                  { s with timestamp_within_cluster :=
                      s.num_frames_within_cluster * s.frame_duration }
               else
                { s with timestamp_within_cluster :=
                    s.num_frames_within_cluster * s.frame_duration })
           else
            (if 0x7fff < s.num_frames_within_cluster * s.frame_duration || isIDR then
              close_and_open_cluster
                { s with timestamp_within_cluster :=
                    s.num_frames_within_cluster * s.frame_duration }
             else
              { s with timestamp_within_cluster :=
                  s.num_frames_within_cluster * s.frame_duration }))
          outsz payload := by
  rw [process_nal, if_neg (by omega), if_neg (by omega)]

theorem process_nal_inv (s : RecState) (outsz : Nat) (payload : List Nat) (isIDR : Bool)
    (hInv : ClusterInv s) (hwf : outsz ≤ payload.length) :
    ClusterInv (process_nal s outsz payload isIDR) := by
  by_cases h0 : outsz = 0
  · rw [process_nal, if_pos h0]
    exact hInv
  by_cases hbig : 268435455 < outsz + 4
  · rw [process_nal, if_neg h0, if_pos hbig]
    exact hInv
  rw [process_nal_eq s outsz payload isIDR (by omega) (by omega)]
  have h1 : ClusterInv { s with timestamp_within_cluster :=
      s.num_frames_within_cluster * s.frame_duration } := clusterInv_tsw s hInv _
  apply clusterInv_block _ _ _ _ hwf
  split_ifs
  · exact clusterInv_append_cue _ (clusterInv_close _ h1)
  · exact clusterInv_append_cue _ h1
  · exact clusterInv_close _ h1
  · exact h1

theorem record_frame_step_inv (s : RecState) (e : FrameEv) (hInv : ClusterInv s)
    (hwf : e.outsz ≤ e.payload.length) :
    ClusterInv (record_frame_step s e) :=
  process_nal_inv _ _ _ _ (clusterInv_num s hInv _) hwf

theorem foldl_record_inv (events : List FrameEv) (s : RecState) (hInv : ClusterInv s)
    (hwf : ∀ e ∈ events, e.outsz ≤ e.payload.length) :
    ClusterInv (events.foldl record_frame_step s) := by
  induction events generalizing s with
  | nil => exact hInv
  | cons e es ih =>
    rw [List.foldl_cons]
    exact ih _ (record_frame_step_inv s e hInv (hwf e (by simp)))
      (fun x hx => hwf x (by simp [hx]))

@[simp] theorem append_cue_file (s : RecState) : (append_cue s).file = s.file := by
  rw [append_cue]
  split_ifs <;> rfl

@[simp] theorem append_cue_tsc (s : RecState) :
    (append_cue s).timestamp_of_cluster = s.timestamp_of_cluster := by
  rw [append_cue]
  split_ifs <;> rfl

@[simp] theorem append_cue_coff (s : RecState) :
    (append_cue s).cluster_offset_within_segment = s.cluster_offset_within_segment := by
  rw [append_cue]
  split_ifs <;> rfl

@[simp] theorem append_cue_num (s : RecState) :
    (append_cue s).num_frames_within_cluster = s.num_frames_within_cluster := by
  rw [append_cue]
  split_ifs <;> rfl

@[simp] theorem append_cue_tsw (s : RecState) :
    (append_cue s).timestamp_within_cluster = s.timestamp_within_cluster := by
  rw [append_cue]
  split_ifs <;> rfl

@[simp] theorem append_cue_cs (s : RecState) :
    (append_cue s).cluster_size = s.cluster_size := by
  rw [append_cue]
  split_ifs <;> rfl

@[simp] theorem append_cue_closed (s : RecState) :
    (append_cue s).closed_clusters = s.closed_clusters := by
  rw [append_cue]
  split_ifs <;> rfl

@[simp] theorem wsb_tsc (s : RecState) (o : Nat) (p : List Nat) :
    (write_simple_block s o p).timestamp_of_cluster = s.timestamp_of_cluster := rfl

@[simp] theorem wsb_coff (s : RecState) (o : Nat) (p : List Nat) :
    (write_simple_block s o p).cluster_offset_within_segment
      = s.cluster_offset_within_segment := rfl

@[simp] theorem wsb_num (s : RecState) (o : Nat) (p : List Nat) :
    (write_simple_block s o p).num_frames_within_cluster
      = s.num_frames_within_cluster := rfl

@[simp] theorem wsb_tsw (s : RecState) (o : Nat) (p : List Nat) :
    (write_simple_block s o p).timestamp_within_cluster
      = s.timestamp_within_cluster := rfl

@[simp] theorem wsb_cs (s : RecState) (o : Nat) (p : List Nat) :
    (write_simple_block s o p).cluster_size = s.cluster_size + o + 9 := rfl

@[simp] theorem wsb_closed (s : RecState) (o : Nat) (p : List Nat) :
    (write_simple_block s o p).closed_clusters = s.closed_clusters := rfl

/-- A concrete reachable-shape state used to witness the step theorems:
an empty first cluster right after a 189-byte scaffold. -/
def sampleState : RecState :=
  ⟨⟨List.replicate 207 0, 207, true, 0⟩, 103, 5, 141, 3, 0, 10, 20000, [], [], 0, []⟩

theorem sampleState_inv : ClusterInv sampleState := by
  constructor
  · rfl
  · simp only [sampleState, List.length_replicate]
  · simp only [sampleState, SEGMENT_BODY_START_eq, List.length_replicate]
  · simp only [sampleState]
    omega
  · simp only [sampleState]
    omega
  · simp only [sampleState, SEGMENT_BODY_START_eq]
    omega
  · intro e he
    simp only [sampleState] at he
    simp at he
  · intro c hc
    simp only [sampleState] at hc
    simp at hc
  · rfl
  · simp only [sampleState, CUE_VECTOR_SIZE]
    omega

/-- C7: the oversize guard (src/main.c:1040-1042).  Whenever the encoder
returns `outsz` with `outsz + 4 > 0x0FFFFFFF`, the frame is skipped after a
warning: the muxer state is returned unchanged — no SimpleBlock bytes are
written, the cluster bookkeeping (running size, timestamps, offsets) is
untouched, and no cue entry is appended. -/
theorem C7_oversize_guard (s : RecState) (outsz : Nat) (payload : List Nat) (isIDR : Bool)
    (hbig : 268435455 < outsz + 4) :
    process_nal s outsz payload isIDR = s := by
  rw [process_nal, if_neg (by omega), if_pos hbig]

/-- Witness for C7_oversize_guard: an IDR frame of encoded size
`0x0FFFFFFC` is dropped without any state change. -/
theorem C7_oversize_guard_witness :
    268435455 < 268435452 + 4
    ∧ process_nal sampleState 268435452 [] true = sampleState :=
  ⟨by decide, C7_oversize_guard sampleState 268435452 [] true (by decide)⟩

theorem process_nal_roll_eq (s : RecState) (outsz : Nat) (payload : List Nat)
    (isIDR : Bool) (h0 : 0 < outsz) (hsz : outsz + 4 ≤ 268435455)
    (hcond : 0x7fff < s.num_frames_within_cluster * s.frame_duration ∨ isIDR = true) :
    process_nal s outsz payload isIDR
      = write_simple_block (if isIDR = true then
          append_cue (close_and_open_cluster { s with timestamp_within_cluster :=
            s.num_frames_within_cluster * s.frame_duration })
        else close_and_open_cluster { s with timestamp_within_cluster :=
          s.num_frames_within_cluster * s.frame_duration }) outsz payload := by
  rw [process_nal_eq s outsz payload isIDR h0 hsz]
  have hb : (decide (0x7fff < s.num_frames_within_cluster * s.frame_duration)
      || isIDR) = true := by
    rcases hcond with hco | hco
    · simp [hco]
    · simp [hco]
  rw [if_pos hb]

theorem process_nal_no_roll_eq (s : RecState) (outsz : Nat) (payload : List Nat)
    (h0 : 0 < outsz) (hsz : outsz + 4 ≤ 268435455)
    (hlt : ¬ 0x7fff < s.num_frames_within_cluster * s.frame_duration) :
    process_nal s outsz payload false
      = write_simple_block { s with timestamp_within_cluster :=
          s.num_frames_within_cluster * s.frame_duration } outsz payload := by
  rw [process_nal_eq s outsz payload false h0 hsz]
  rw [if_neg (by simp), if_neg (by simp; omega)]

/-- C2: the cluster rollover policy (src/main.c:1045-1067).  For a frame
whose NAL is non-empty and not oversized, a new cluster is opened if and
only if the block's cluster-relative timestamp
`num_frames_within_cluster * frame_duration` exceeds 0x7fff or the NAL is an
IDR.  On rollover the just-closed cluster's size field is back-patched with
`0x10000000 | cluster_size`, the fresh cluster starts at the previous end of
file, its absolute timestamp is the previous cluster timestamp plus the
triggering block's in-cluster timestamp, and the frame counter, the
in-cluster timestamp and the running size start fresh (the size restarts at
10, then grows by `outsz + 9` for the block just written).  Without rollover
the cluster bookkeeping advances in place. -/
theorem C2_cluster_rollover (s : RecState) (outsz : Nat) (payload : List Nat) (isIDR : Bool)
    (hInv : ClusterInv s) (h0 : 0 < outsz) (hsz : outsz + 4 ≤ 268435455) :
    ((process_nal s outsz payload isIDR).cluster_offset_within_segment
        ≠ s.cluster_offset_within_segment
      ↔ (0x7fff < s.num_frames_within_cluster * s.frame_duration ∨ isIDR = true))
    ∧ ((0x7fff < s.num_frames_within_cluster * s.frame_duration ∨ isIDR = true) →
        ((process_nal s outsz payload isIDR).timestamp_of_cluster
            = s.timestamp_of_cluster + s.num_frames_within_cluster * s.frame_duration
          ∧ (process_nal s outsz payload isIDR).cluster_offset_within_segment
              + SEGMENT_BODY_START = s.file.data.length
          ∧ (process_nal s outsz payload isIDR).num_frames_within_cluster = 0
          ∧ (process_nal s outsz payload isIDR).cluster_size = 10 + (outsz + 9)
          ∧ read32 (process_nal s outsz payload isIDR).file.data
              (s.cluster_offset_within_segment + SEGMENT_BODY_START + 4)
            = (0x10000000 ||| s.cluster_size) % 0x100000000))
    ∧ (¬(0x7fff < s.num_frames_within_cluster * s.frame_duration ∨ isIDR = true) →
        ((process_nal s outsz payload isIDR).timestamp_of_cluster = s.timestamp_of_cluster
          ∧ (process_nal s outsz payload isIDR).cluster_offset_within_segment
            = s.cluster_offset_within_segment
          ∧ (process_nal s outsz payload isIDR).num_frames_within_cluster
            = s.num_frames_within_cluster
          ∧ (process_nal s outsz payload isIDR).timestamp_within_cluster
            = s.num_frames_within_cluster * s.frame_duration
          ∧ (process_nal s outsz payload isIDR).cluster_size
            = s.cluster_size + outsz + 9)) := by
  obtain ⟨hv, hp, hlen, hcs, hsk, hcur, hcl, hch, hl, hle⟩ := hInv
  have hInv' : ClusterInv s := ⟨hv, hp, hlen, hcs, hsk, hcur, hcl, hch, hl, hle⟩
  have hInv1 : ClusterInv { s with timestamp_within_cluster :=
      s.num_frames_within_cluster * s.frame_duration } := clusterInv_tsw s hInv' _
  have hclose := close_and_open_cluster_eq _ hInv1
  by_cases hcond : 0x7fff < s.num_frames_within_cluster * s.frame_duration ∨ isIDR = true
  · rw [process_nal_roll_eq s outsz payload isIDR h0 hsz hcond]
    have hfacts : ∀ t : RecState, t = (if isIDR = true then
          append_cue (close_and_open_cluster { s with timestamp_within_cluster :=
            s.num_frames_within_cluster * s.frame_duration })
        else close_and_open_cluster { s with timestamp_within_cluster :=
          s.num_frames_within_cluster * s.frame_duration }) →
        t.file = (close_and_open_cluster { s with timestamp_within_cluster :=
            s.num_frames_within_cluster * s.frame_duration }).file
        ∧ t.timestamp_of_cluster
            = s.timestamp_of_cluster + s.num_frames_within_cluster * s.frame_duration
        ∧ t.cluster_offset_within_segment = s.file.data.length - SEGMENT_BODY_START
        ∧ t.num_frames_within_cluster = 0
        ∧ t.timestamp_within_cluster = 0
        ∧ t.cluster_size = 10 := by
      intro t ht
      subst ht
      split_ifs <;> simp [hclose]
    obtain ⟨hf, htsc, hcoff, hnum, htsw, hcsz⟩ := hfacts _ rfl
    have hlen48 : 48 ≤ s.file.data.length := by
      simp only [SEGMENT_BODY_START_eq] at *
      omega
    refine ⟨⟨fun _ => hcond, fun _ => ?_⟩, fun _ => ⟨?_, ?_, ?_, ?_, ?_⟩,
      fun hno => absurd hcond hno⟩
    · rw [wsb_coff, hcoff]
      simp only [SEGMENT_BODY_START_eq] at *
      omega
    · rw [wsb_tsc, htsc]
    · rw [wsb_coff, hcoff]
      simp only [SEGMENT_BODY_START_eq] at *
      omega
    · rw [wsb_num, hnum]
    · rw [wsb_cs, hcsz]
      omega
    · have hval : (if isIDR = true then
          append_cue (close_and_open_cluster { s with timestamp_within_cluster :=
            s.num_frames_within_cluster * s.frame_duration })
        else close_and_open_cluster { s with timestamp_within_cluster :=
          s.num_frames_within_cluster * s.frame_duration }).file.valid = true := by
        rw [hf, hclose]
      have hpe : (if isIDR = true then
          append_cue (close_and_open_cluster { s with timestamp_within_cluster :=
            s.num_frames_within_cluster * s.frame_duration })
        else close_and_open_cluster { s with timestamp_within_cluster :=
          s.num_frames_within_cluster * s.frame_duration }).file.pos
          = (if isIDR = true then
          append_cue (close_and_open_cluster { s with timestamp_within_cluster :=
            s.num_frames_within_cluster * s.frame_duration })
        else close_and_open_cluster { s with timestamp_within_cluster :=
          s.num_frames_within_cluster * s.frame_duration }).file.data.length := by
        rw [hf, hclose]
        simp [length_overwrite]
      rw [write_simple_block_eq _ outsz payload hval hpe]
      show read32 (_ ++ _) _ = _
      rw [hf, hclose]
      simp only [SEGMENT_BODY_START_eq] at *
      rw [read32_append_left _ _ _ (by simp [length_overwrite]; omega)]
      rw [read32_append_left _ _ _ (by rw [length_overwrite]; omega)]
      exact read32_of_overwrite_int32bytes _ _ _ (by omega)
  · have hlt : ¬ 0x7fff < s.num_frames_within_cluster * s.frame_duration :=
      fun hx => hcond (Or.inl hx)
    have hidr : isIDR = false := by
      cases isIDR
      · rfl
      · exact absurd (Or.inr rfl) hcond
    subst hidr
    rw [process_nal_no_roll_eq s outsz payload h0 hsz hlt]
    refine ⟨⟨fun hne => absurd rfl hne, fun hco => absurd hco hcond⟩,
      fun hco => absurd hco hcond, fun _ => ⟨rfl, rfl, rfl, rfl, rfl⟩⟩

/-- Witness for C2_cluster_rollover: a non-IDR frame of size 5 whose
in-cluster timestamp 3 * 20000 = 60000 exceeds 0x7fff, forcing a rollover. -/
theorem C2_cluster_rollover_witness :
    ClusterInv sampleState ∧ 0 < 5 ∧ 5 + 4 ≤ 268435455
    ∧ (((process_nal sampleState 5 [1, 2, 3, 4, 5] false).cluster_offset_within_segment
          ≠ sampleState.cluster_offset_within_segment
        ↔ (0x7fff < sampleState.num_frames_within_cluster * sampleState.frame_duration
          ∨ false = true))
      ∧ ((0x7fff < sampleState.num_frames_within_cluster * sampleState.frame_duration
          ∨ false = true) →
          ((process_nal sampleState 5 [1, 2, 3, 4, 5] false).timestamp_of_cluster
              = sampleState.timestamp_of_cluster
                + sampleState.num_frames_within_cluster * sampleState.frame_duration
            ∧ (process_nal sampleState 5 [1, 2, 3, 4, 5] false).cluster_offset_within_segment
                + SEGMENT_BODY_START = sampleState.file.data.length
            ∧ (process_nal sampleState 5 [1, 2, 3, 4, 5] false).num_frames_within_cluster
              = 0
            ∧ (process_nal sampleState 5 [1, 2, 3, 4, 5] false).cluster_size = 10 + (5 + 9)
            ∧ read32 (process_nal sampleState 5 [1, 2, 3, 4, 5] false).file.data
                (sampleState.cluster_offset_within_segment + SEGMENT_BODY_START + 4)
              = (0x10000000 ||| sampleState.cluster_size) % 0x100000000))
      ∧ (¬(0x7fff < sampleState.num_frames_within_cluster * sampleState.frame_duration
          ∨ false = true) →
          ((process_nal sampleState 5 [1, 2, 3, 4, 5] false).timestamp_of_cluster
              = sampleState.timestamp_of_cluster
            ∧ (process_nal sampleState 5 [1, 2, 3, 4, 5] false).cluster_offset_within_segment
              = sampleState.cluster_offset_within_segment
            ∧ (process_nal sampleState 5 [1, 2, 3, 4, 5] false).num_frames_within_cluster
              = sampleState.num_frames_within_cluster
            ∧ (process_nal sampleState 5 [1, 2, 3, 4, 5] false).timestamp_within_cluster
              = sampleState.num_frames_within_cluster * sampleState.frame_duration
            ∧ (process_nal sampleState 5 [1, 2, 3, 4, 5] false).cluster_size
              = sampleState.cluster_size + 5 + 9))) :=
  ⟨sampleState_inv, by decide, by decide,
    C2_cluster_rollover sampleState 5 [1, 2, 3, 4, 5] false sampleState_inv
      (by decide) (by decide)⟩

/-! ## Finalization lemmas -/

theorem drop_set_of_lt (d : List Nat) (p n v : Nat) (h : p < n) :
    (d.set p v).drop n = d.drop n := by
  apply List.ext_getElem?
  intro q
  rcases Nat.lt_or_ge q (d.length - n) with hq | hq
  · rw [List.getElem?_drop, List.getElem?_drop, List.getElem?_set_ne (by omega)]
  · rw [List.getElem?_drop, List.getElem?_drop]
    rw [List.getElem?_eq_none (by simp; omega), List.getElem?_eq_none (by omega)]

theorem drop_overwrite (ws : List Nat) (d : List Nat) (p n : Nat)
    (h : p + ws.length ≤ n) : (overwrite d p ws).drop n = d.drop n := by
  induction ws generalizing d p with
  | nil => rfl
  | cons w ws ih =>
    rw [overwrite_cons, ih _ _ (by simp at h; omega), drop_set_of_lt _ _ _ _ (by simp at h; omega)]

@[simp] theorem length_cue_point_bytes (c : Cue) : (cue_point_bytes c).length = 29 := by
  simp [cue_point_bytes]

theorem length_flatMap_cue (l : List Cue) :
    (l.flatMap cue_point_bytes).length = 29 * l.length := by
  induction l with
  | nil => simp
  | cons c cs ih =>
    simp [ih]
    ring

theorem cue_point_bytes_mod (c : Cue) :
    (cue_point_bytes c).map (· % 256) = cue_point_bytes c := by
  simp [cue_point_bytes, int64bytes, int32bytes]

theorem flatMap_cue_mod (l : List Cue) :
    (l.flatMap cue_point_bytes).map (· % 256) = l.flatMap cue_point_bytes := by
  induction l with
  | nil => rfl
  | cons c cs ih =>
    simp only [List.flatMap_cons, List.map_append, ih, cue_point_bytes_mod]

/-- Closed form of the finalization path under the invariant. -/
theorem record_finalize_eq (s : RecState) (hInv : ClusterInv s) :
    record_finalize s
      = (⟨overwrite (overwrite
            (overwrite (overwrite s.file.data
                (s.cluster_offset_within_segment + 52)
                (int32bytes (0x10000000 ||| s.cluster_size)))
              (s.seekh_off + 46) (int32bytes (s.file.data.length - 48))
            ++ int32bytes 0x1c53bb6b ++ int32bytes 0
            ++ (cue_emit_list s).flatMap cue_point_bytes)
            (s.file.data.length + 4)
            (int32bytes (0x10000000
              ||| ((cue_emit_list s).flatMap cue_point_bytes).length)))
          44 (int32bytes (0x10000000
            ||| (s.file.data.length + 8
              + ((cue_emit_list s).flatMap cue_point_bytes).length - 48))),
          48, true, s.file.errs⟩,
        s.closed_clusters
          ++ [(s.cluster_offset_within_segment + SEGMENT_BODY_START, s.cluster_size,
               s.file.data.length)]) := by
  obtain ⟨hv, hp, hlen, hcs, hsk, hcur, hcl, hch, hl, hle⟩ := hInv
  simp only [SEGMENT_BODY_START_eq] at *
  rw [record_finalize]
  simp only [SEGMENT_BODY_START_eq]
  rw [hp]
  have ha : s.file.data.length - (s.cluster_size + 4)
      = s.cluster_offset_within_segment + 52 := by omega
  rw [ha]
  rw [write_int32_patch { s.file with pos := s.cluster_offset_within_segment + 52 }
    (0x10000000 ||| s.cluster_size) hv (by simp; omega)]
  simp only []
  rw [write_int32_patch
    (⟨overwrite s.file.data (s.cluster_offset_within_segment + 52)
        (int32bytes (0x10000000 ||| s.cluster_size)),
      s.seekh_off + 46, true, s.file.errs⟩ : MFile)
    (s.file.data.length - 48) rfl (by simp [length_overwrite]; omega)]
  simp only []
  rw [write_int32_eof
    (⟨overwrite (overwrite s.file.data (s.cluster_offset_within_segment + 52)
          (int32bytes (0x10000000 ||| s.cluster_size)))
        (s.seekh_off + 46) (int32bytes (s.file.data.length - 48)),
      s.file.data.length, true, s.file.errs⟩ : MFile)
    0x1c53bb6b rfl (by simp [length_overwrite])]
  simp only []
  rw [write_int32_eof _ 0x00000000 rfl (by simp [length_overwrite])]
  simp only []
  rw [writeList_eof ((cue_emit_list s).flatMap cue_point_bytes) _ rfl
    (by simp [length_overwrite])]
  simp only []
  rw [flatMap_cue_mod]
  have hc : s.file.data.length + 4 + 4 + ((cue_emit_list s).flatMap cue_point_bytes).length
      - (s.file.data.length + 4) - 4
      = ((cue_emit_list s).flatMap cue_point_bytes).length := by omega
  rw [hc]
  rw [write_int32_patch
    (⟨overwrite (overwrite s.file.data (s.cluster_offset_within_segment + 52)
          (int32bytes (0x10000000 ||| s.cluster_size)))
        (s.seekh_off + 46) (int32bytes (s.file.data.length - 48))
      ++ int32bytes 0x1c53bb6b ++ int32bytes 0
      ++ (cue_emit_list s).flatMap cue_point_bytes,
      s.file.data.length + 4, true, s.file.errs⟩ : MFile)
    (0x10000000 ||| ((cue_emit_list s).flatMap cue_point_bytes).length) rfl
    (by simp [length_overwrite]; omega)]
  simp only []
  have hd : ebml_header.length + 4 = 44 := rfl
  rw [hd]
  rw [write_int32_patch]
  · simp only []
    simp [length_overwrite]
    have he : s.file.data.length
          + (4 + (4 + (List.map (List.length ∘ cue_point_bytes) (cue_emit_list s)).sum)) - 48
        = s.file.data.length + 8
          + (List.map (List.length ∘ cue_point_bytes) (cue_emit_list s)).sum - 48 := by
      omega
    rw [he]
  · rfl
  · simp [length_overwrite]
    omega
set_option maxHeartbeats 1000000 in
/-- The facts finalization guarantees: final length, every closed cluster's
patched size field, the Segment size field, and the cue region bytes. -/
theorem record_finalize_spec (s : RecState) (hInv : ClusterInv s) :
    ((record_finalize s).1.data.length
        = s.file.data.length + 8 + 29 * (cue_emit_list s).length)
    ∧ (∀ e ∈ (record_finalize s).2,
        read32 (record_finalize s).1.data (e.1 + 4)
            = (0x10000000 ||| e.2.1) % 0x100000000
          ∧ e.1 + 8 + e.2.1 = e.2.2)
    ∧ read32 (record_finalize s).1.data 44
        = (0x10000000 ||| ((record_finalize s).1.data.length - SEGMENT_BODY_START))
          % 0x100000000
    ∧ (record_finalize s).1.data.drop (s.file.data.length + 8)
        = (cue_emit_list s).flatMap cue_point_bytes := by
  have hfe := record_finalize_eq s hInv
  obtain ⟨hv, hp, hlen, hcs, hsk, hcur, hcl, hch, hl, hle⟩ := hInv
  simp only [SEGMENT_BODY_START_eq] at *
  rw [hfe]
  simp only []
  have hflat : ((cue_emit_list s).flatMap cue_point_bytes).length
      = 29 * (cue_emit_list s).length := length_flatMap_cue _
  refine ⟨?_, ?_, ?_, ?_⟩
  · simp only [List.length_append, length_overwrite, length_int32bytes, hflat]
  · intro e he
    simp only [List.mem_append, List.mem_singleton] at he
    rcases he with he | he
    · obtain ⟨hr, hspan, hub, hlb⟩ := hcl e he
      refine ⟨?_, hspan⟩
      rw [read32_overwrite_after _ _ _ _ (by simp only [length_int32bytes]; omega)]
      rw [read32_overwrite_before _ _ _ _ (by omega)]
      rw [read32_append_left _ _ _ (by
        simp only [List.length_append, length_overwrite, length_int32bytes]
        omega)]
      rw [read32_append_left _ _ _ (by
        simp only [List.length_append, length_overwrite, length_int32bytes]
        omega)]
      rw [read32_append_left _ _ _ (by
        simp only [length_overwrite]
        omega)]
      rw [read32_overwrite_after _ _ _ _ (by simp only [length_int32bytes]; omega)]
      rw [read32_overwrite_before _ _ _ _ (by omega)]
      exact hr
    · rw [he]
      refine ⟨?_, by simp only []; omega⟩
      rw [read32_overwrite_after _ _ _ _ (by simp only [length_int32bytes]; omega)]
      rw [read32_overwrite_before _ _ _ _ (by simp only [length_int32bytes]; omega)]
      rw [read32_append_left _ _ _ (by
        simp only [List.length_append, length_overwrite, length_int32bytes]
        omega)]
      rw [read32_append_left _ _ _ (by
        simp only [List.length_append, length_overwrite, length_int32bytes]
        omega)]
      rw [read32_append_left _ _ _ (by
        simp only [length_overwrite]
        omega)]
      rw [read32_overwrite_after _ _ _ _ (by simp only [length_int32bytes]; omega)]
      exact read32_of_overwrite_int32bytes _ _ _ (by omega)
  · simp only [List.length_append, length_overwrite, length_int32bytes]
    rw [read32_of_overwrite_int32bytes _ _ _ (by
      simp only [List.length_append, length_overwrite, length_int32bytes]
      omega)]
  · rw [drop_overwrite _ _ _ _ (by simp only [length_int32bytes]; omega)]
    rw [drop_overwrite _ _ _ _ (by simp only [length_int32bytes]; omega)]
    have hPl : (overwrite (overwrite s.file.data
          (s.cluster_offset_within_segment + 52)
          (int32bytes (0x10000000 ||| s.cluster_size)))
        (s.seekh_off + 46) (int32bytes (s.file.data.length - 48))
        ++ int32bytes 0x1c53bb6b ++ int32bytes 0).length
        = s.file.data.length + 8 := by
      simp only [List.length_append, length_overwrite, length_int32bytes]
    rw [show s.file.data.length + 8
        = (overwrite (overwrite s.file.data
            (s.cluster_offset_within_segment + 52)
            (int32bytes (0x10000000 ||| s.cluster_size)))
          (s.seekh_off + 46) (int32bytes (s.file.data.length - 48))
          ++ int32bytes 0x1c53bb6b ++ int32bytes 0).length from hPl.symm]
    rw [List.drop_left]

/-- Masking off the top nibble of a stored 28-bit EBML size recovers the
size modulo 2^28. -/
theorem or_mask28 (x : Nat) :
    ((0x10000000 ||| x) % 0x100000000) &&& 0x0FFFFFFF = x % 0x10000000 := by
  have h1 : ∀ y : Nat, y &&& 0x0FFFFFFF = y % 0x10000000 := fun y => by
    have := Nat.and_pow_two_sub_one_eq_mod y 28
    norm_num at this
    exact this
  rw [h1, Nat.mod_mod_of_dvd _ (by norm_num), ← h1, Nat.and_distrib_right]
  have h2 : (268435456 : Nat) &&& 268435455 = 0 := by decide
  rw [h2, Nat.zero_or, h1]

/-! ## Cue index -/

/-- The cue entries in insertion order. -/
def cue_flat (s : RecState) : List Cue := s.cue_full.flatten ++ s.cue_last

theorem flatMap_take_of_length (l : List (List Cue))
    (h : ∀ c ∈ l, c.length = CUE_VECTOR_SIZE) :
    l.flatMap (fun c => c.take CUE_VECTOR_SIZE) = l.flatten := by
  induction l with
  | nil => rfl
  | cons c cs ih =>
    rw [List.flatMap_cons, List.flatten_cons,
      List.take_of_length_le (by rw [h c (by simp)]),
      ih (fun x hx => h x (by simp [hx]))]

/-- Under the invariant, the finalization loop visits exactly the inserted
cue entries, in insertion order. -/
theorem cue_emit_eq_flat (s : RecState) (hInv : ClusterInv s) :
    cue_emit_list s = cue_flat s := by
  rw [cue_emit_list, cue_flat, flatMap_take_of_length _ hInv.hchunks,
    ← hInv.hlast, List.take_length]

theorem append_cue_flat (s : RecState) :
    cue_flat (append_cue s)
      = cue_flat s ++ [⟨s.timestamp_of_cluster + s.timestamp_within_cluster,
          s.cluster_offset_within_segment, s.cluster_size⟩] := by
  rw [append_cue]
  split_ifs with hfull
  · simp [cue_flat]
  · simp [cue_flat]

theorem cue_flat_wsb (s : RecState) (o : Nat) (p : List Nat) :
    cue_flat (write_simple_block s o p) = cue_flat s := rfl

theorem cue_flat_close (s : RecState) :
    cue_flat (close_and_open_cluster s) = cue_flat s := rfl

/-- C3: cue consistency (src/main.c:1071-1089 and 1150-1178).  For every IDR
NAL emitted as a block, exactly one cue entry is appended: its timestamp is
the cluster timestamp plus the block's in-cluster timestamp, its
cluster_position is the segment-relative byte offset of the containing
(freshly opened) cluster header, and its relative_position is the cluster's
running size at that moment, which is 10 for the fresh header — and indeed
the SimpleBlock ID byte 0xa3 lands exactly 8 + 10 bytes after the cluster
start.  A non-IDR block appends no entry.  At finalization each entry is
written as one 29-byte CuePoint, in insertion order. -/
theorem C3_cue_consistency (s : RecState) (outsz : Nat) (payload : List Nat)
    (hInv : ClusterInv s) (h0 : 0 < outsz) (hsz : outsz + 4 ≤ 268435455) :
    (cue_flat (process_nal s outsz payload true)
        = cue_flat s
          ++ [⟨s.timestamp_of_cluster + s.num_frames_within_cluster * s.frame_duration,
               s.file.data.length - SEGMENT_BODY_START, 10⟩])
    ∧ (process_nal s outsz payload true).file.data.getD
        (s.file.data.length + 8 + 10) 0 = 0xa3
    ∧ cue_flat (process_nal s outsz payload false) = cue_flat s
    ∧ cue_emit_list s = cue_flat s
    ∧ (record_finalize s).1.data.drop (s.file.data.length + 8)
        = (cue_flat s).flatMap cue_point_bytes := by
  have hInv1 : ClusterInv { s with timestamp_within_cluster :=
      s.num_frames_within_cluster * s.frame_duration } := clusterInv_tsw s hInv _
  have hX := close_and_open_cluster_eq _ hInv1
  refine ⟨?_, ?_, ?_, cue_emit_eq_flat s hInv, ?_⟩
  · rw [process_nal_roll_eq s outsz payload true h0 hsz (Or.inr rfl), if_pos rfl,
      cue_flat_wsb, append_cue_flat, hX]
    simp [cue_flat]
  · rw [process_nal_roll_eq s outsz payload true h0 hsz (Or.inr rfl), if_pos rfl]
    have hInv3 : ClusterInv (append_cue (close_and_open_cluster { s with
        timestamp_within_cluster := s.num_frames_within_cluster * s.frame_duration })) :=
      clusterInv_append_cue _ (clusterInv_close _ hInv1)
    rw [write_simple_block_eq _ outsz payload hInv3.hvalid hInv3.hpos]
    simp only []
    rw [append_cue_file]
    have hXlen : (close_and_open_cluster { s with timestamp_within_cluster :=
        s.num_frames_within_cluster * s.frame_duration }).file.data.length
        = s.file.data.length + 18 := by
      rw [hX]
      simp [length_overwrite]
    rw [getD_append_right (by rw [hXlen]), hXlen,
      show s.file.data.length + 8 + 10 - (s.file.data.length + 18) = 0 from by omega]
    simp [simple_block_bytes]
  · by_cases hlt : 0x7fff < s.num_frames_within_cluster * s.frame_duration
    · rw [process_nal_roll_eq s outsz payload false h0 hsz (Or.inl hlt),
        if_neg (by simp), cue_flat_wsb, cue_flat_close]
      simp [cue_flat]
    · rw [process_nal_no_roll_eq s outsz payload h0 hsz hlt, cue_flat_wsb]
      simp [cue_flat]
  · have hspec := (record_finalize_spec s hInv).2.2.2
    rwa [cue_emit_eq_flat s hInv] at hspec

/-- Witness for C3_cue_consistency: an IDR frame of size 5 arriving at the
sample state appends one cue entry and places the block ID right after the
fresh cluster header. -/
theorem C3_cue_consistency_witness :
    ClusterInv sampleState ∧ 0 < 5 ∧ 5 + 4 ≤ 268435455
    ∧ ((cue_flat (process_nal sampleState 5 [1, 2, 3, 4, 5] true)
        = cue_flat sampleState
          ++ [⟨sampleState.timestamp_of_cluster
                + sampleState.num_frames_within_cluster * sampleState.frame_duration,
               sampleState.file.data.length - SEGMENT_BODY_START, 10⟩])
      ∧ (process_nal sampleState 5 [1, 2, 3, 4, 5] true).file.data.getD
          (sampleState.file.data.length + 8 + 10) 0 = 0xa3
      ∧ cue_flat (process_nal sampleState 5 [1, 2, 3, 4, 5] false) = cue_flat sampleState
      ∧ cue_emit_list sampleState = cue_flat sampleState
      ∧ (record_finalize sampleState).1.data.drop (sampleState.file.data.length + 8)
          = (cue_flat sampleState).flatMap cue_point_bytes) :=
  ⟨sampleState_inv, by decide, by decide,
    C3_cue_consistency sampleState 5 [1, 2, 3, 4, 5] sampleState_inv
      (by decide) (by decide)⟩

/-! ## Whole-session theorems -/

theorem record_session_start_hsz (w h dd fd : Nat) (sps pps : List Nat) (s0 : RecState)
    (hstart : record_session_start true w h dd fd sps pps = Except.ok s0) :
    50 + (11 + sps.length + pps.length) ≤ 126 := by
  by_contra hsz
  have hbuild : build_matroska_header w h dd sps pps = Except.error () :=
    (build_error_iff w h dd sps pps).mpr (Or.inr (Or.inr (by omega)))
  rw [record_session_start, write_minimal_matroska_header, hbuild] at hstart
  simp at hstart

theorem record_session_start_inv (w h dd fd : Nat) (sps pps : List Nat) (s0 : RecState)
    (hstart : record_session_start true w h dd fd sps pps = Except.ok s0) :
    ClusterInv s0 ∧ s0.closed_clusters = [] ∧ s0.cue_full = [] ∧ s0.cue_last = []
      ∧ s0.cueind = 0 ∧ read32 s0.file.data 44 = 0 := by
  obtain ⟨s1, hstart1, hinv, hfd, htsc, hnum, hcs, hcf, hcl, hci, hclosed, hoff, hlen, h44⟩ :=
    record_session_start_ok w h dd fd sps pps
      (record_session_start_hsz w h dd fd sps pps s0 hstart)
  rw [hstart1] at hstart
  injection hstart with h1
  subst h1
  exact ⟨hinv, hclosed, hcf, hcl, hci, h44⟩

/-- The output of a whole recording session, the failed case collapsed to an
empty invalid file (the Except layer already records the failure). -/
def session_result (w h dd fd : Nat) (sps pps : List Nat) (events : List FrameEv) :
    MFile × List (Nat × Nat × Nat) :=
  match record_session true w h dd fd sps pps events with
  | Except.error () => (⟨[], 0, false, 0⟩, [])
  | Except.ok r => r

/-- The muxer state right after the scaffold, the failed case collapsed to a
dummy state. -/
def session_start_state (w h dd fd : Nat) (sps pps : List Nat) : RecState :=
  match record_session_start true w h dd fd sps pps with
  | Except.error () => ⟨⟨[], 0, false, 0⟩, 0, 0, 0, 0, 0, 0, 0, [], [], 0, []⟩
  | Except.ok s0 => s0

/-- C5 (corrected): cluster size back-patch (src/main.c:744-758, 1054-1066,
1092-1118).  The 4-byte size field of a cluster lives at cluster_offset + 4,
not at cluster_offset + 5 as the claim states: for every closed cluster of a
session, reading the 4 bytes at its offset + 4 and masking off the top
nibble yields exactly the number of bytes between the end of that field
(offset + 8) and the start of the next cluster or of the Cues element. -/
theorem C5_cluster_size_backpatch (w h dd fd : Nat) (sps pps : List Nat)
    (events : List FrameEv) (e : Nat × Nat × Nat)
    (hwf : ∀ ev ∈ events, ev.outsz ≤ ev.payload.length)
    (hmem : e ∈ (session_result w h dd fd sps pps events).2)
    (hfit : e.2.1 < 0x10000000) :
    read32 (session_result w h dd fd sps pps events).1.data (e.1 + 4) &&& 0x0FFFFFFF
        = e.2.2 - (e.1 + 8)
    ∧ e.1 + 8 + e.2.1 = e.2.2 := by
  cases hstart : record_session_start true w h dd fd sps pps with
  | error u =>
    cases u
    rw [session_result, record_session, record_session_state, hstart] at hmem
    simp at hmem
  | ok s0 =>
    obtain ⟨hinv0, _, _, _, _, _⟩ :=
      record_session_start_inv w h dd fd sps pps s0 hstart
    have hres : session_result w h dd fd sps pps events
        = record_finalize (events.foldl record_frame_step s0) := by
      rw [session_result, record_session, record_session_state, hstart]
    have hInvF : ClusterInv (events.foldl record_frame_step s0) :=
      foldl_record_inv events s0 hinv0 hwf
    have hspec := (record_finalize_spec (events.foldl record_frame_step s0) hInvF).2.1
    rw [hres] at hmem ⊢
    obtain ⟨hr, hspan⟩ := hspec e hmem
    refine ⟨?_, hspan⟩
    rw [hr, or_mask28, Nat.mod_eq_of_lt hfit]
    omega

set_option maxRecDepth 100000 in
/-- Counterexample to C5 as stated: in a concrete session (4x4 frame,
sps = [7], pps = [8], no frames) the only closed cluster starts at offset
202 and is followed by the Cues at 220; reading the 4 bytes at 202 + 5 —
the field position the claim gives — and masking the top nibble yields
2791, not the 9 bytes between that field's claimed end and the Cues. -/
theorem C5_cluster_size_backpatch_counterexample :
    (202, 10, 220) ∈ (session_result 4 4 33 33 [7] [8] []).2
    ∧ ¬ (read32 (session_result 4 4 33 33 [7] [8] []).1.data (202 + 5) &&& 0x0FFFFFFF
        = 220 - (202 + 5 + 4)) := by decide

set_option maxRecDepth 100000 in
/-- Witness for C5_cluster_size_backpatch: the same concrete session, read
at the actual field position 202 + 4. -/
theorem C5_cluster_size_backpatch_witness :
    (∀ ev ∈ ([] : List FrameEv), ev.outsz ≤ ev.payload.length)
    ∧ (202, 10, 220) ∈ (session_result 4 4 33 33 [7] [8] []).2
    ∧ 10 < 0x10000000
    ∧ (read32 (session_result 4 4 33 33 [7] [8] []).1.data (202 + 4) &&& 0x0FFFFFFF
          = 220 - (202 + 8)
      ∧ 202 + 8 + 10 = 220) :=
  ⟨fun ev hev => by simp at hev, by decide, by decide,
    C5_cluster_size_backpatch 4 4 33 33 [7] [8] [] (202, 10, 220)
      (fun ev hev => by simp at hev) (by decide) (by decide)⟩

/-- C4 (corrected): Segment size back-patch (src/main.c:563-566, 1184-1186).
The Segment size field is the 4 bytes at offset sizeof(ebml_header) + 4
= 44 — not an 8-byte field as the claim states: it is initially zero, and at
finalization the 28-bit value written there with high nibble 0x1 equals
end_of_file - segment_body_start. -/
theorem C4_segment_backpatch (w h dd fd : Nat) (sps pps : List Nat) (events : List FrameEv)
    (hwf : ∀ ev ∈ events, ev.outsz ≤ ev.payload.length)
    (hsz : 50 + (11 + sps.length + pps.length) ≤ 126)
    (hfit : (session_result w h dd fd sps pps events).1.data.length - SEGMENT_BODY_START
      < 0x10000000) :
    read32 (session_start_state w h dd fd sps pps).file.data 44 = 0
    ∧ read32 (session_result w h dd fd sps pps events).1.data 44 &&& 0x0FFFFFFF
        = (session_result w h dd fd sps pps events).1.data.length - SEGMENT_BODY_START := by
  obtain ⟨s0, hstart, hinv0, hfd, htsc, hnum, hcs, hcf, hcl, hci, hclosed, hoff, hlen, h44⟩ :=
    record_session_start_ok w h dd fd sps pps hsz
  have hstate : session_start_state w h dd fd sps pps = s0 := by
    rw [session_start_state, hstart]
  have hres : session_result w h dd fd sps pps events
      = record_finalize (events.foldl record_frame_step s0) := by
    rw [session_result, record_session, record_session_state, hstart]
  have hInvF : ClusterInv (events.foldl record_frame_step s0) :=
    foldl_record_inv events s0 hinv0 hwf
  have hspec := (record_finalize_spec (events.foldl record_frame_step s0) hInvF).2.2.1
  refine ⟨by rw [hstate]; exact h44, ?_⟩
  rw [hres] at hfit ⊢
  rw [hspec, or_mask28, Nat.mod_eq_of_lt hfit]

set_option maxRecDepth 100000 in
/-- Counterexample to C4 as stated: in a concrete session the byte at
offset 48 of the freshly-written scaffold — which an 8-byte size field at
offset 44 would cover — is 0x16 (the first byte of the next element), not
0x00, so the field left as zero is only 4 bytes wide. -/
theorem C4_segment_backpatch_counterexample :
    ¬ (session_start_state 4 4 33 33 [7] [8]).file.data.getD 48 0 = 0 := by decide

set_option maxRecDepth 100000 in
/-- Witness for C4_segment_backpatch: a concrete session (4x4 frame,
sps = [7], pps = [8], no frames) whose final file is 228 bytes. -/
theorem C4_segment_backpatch_witness :
    (∀ ev ∈ ([] : List FrameEv), ev.outsz ≤ ev.payload.length)
    ∧ 50 + (11 + 1 + 1) ≤ 126
    ∧ (session_result 4 4 33 33 [7] [8] []).1.data.length - SEGMENT_BODY_START < 0x10000000
    ∧ (read32 (session_start_state 4 4 33 33 [7] [8]).file.data 44 = 0
      ∧ read32 (session_result 4 4 33 33 [7] [8] []).1.data 44 &&& 0x0FFFFFFF
          = (session_result 4 4 33 33 [7] [8] []).1.data.length - SEGMENT_BODY_START) :=
  ⟨fun ev hev => by simp at hev, by decide, by decide,
    C4_segment_backpatch 4 4 33 33 [7] [8] []
      (fun ev hev => by simp at hev) (by decide) (by decide)⟩

end Screenrec

